import Mathlib

/-!
Shallow embedding of the Screeps-Arena combat sandbox core
(`src/core/constants.mjs`, `src/core/terrain.mjs`, the `MockCreep` class of
`src/core/simulation-runner.mjs` / `creep.mjs`, and the `CombatEngine` of
`combat-engine.mjs`, i.e. `src/unnamed/part_003`).

Modelling conventions:
* JS numbers holding hit points, damage and healing are modelled as `ℚ`
  (all values the engine actually produces are integers, so `ℚ` is exact);
* movement costs and fatigue are modelled as `WithTop ℕ` — the terrain
  stores `Infinity` for walls and fatigue arithmetic saturates exactly like
  `Math.max(0, a - b)` does on JS numbers including `Infinity`;
* grid coordinates are `ℤ`;
* the mutable creep array of the engine becomes a `List Creep`, a creep is
  identified by its roster index, and every method that mutates `this`
  becomes a state-passing function;
* the injected random source `config.random : () → [0,1)` becomes a stream
  `rng : ℕ → ℚ` together with a cursor `rngIdx` that each draw advances.
-/

/-- Error/status codes from `constants.mjs`. -/
def OK : Int := 0

def ERR_NOT_IN_RANGE : Int := -9

def ERR_INVALID_TARGET : Int := -7

def ERR_NO_BODYPART : Int := -12

/-- `ATTACK_POWER` (damage per ATTACK part per tick). -/
def ATTACK_POWER : ℚ := 30

/-- `RANGED_ATTACK_POWER` (base damage per RANGED_ATTACK part). -/
def RANGED_ATTACK_POWER : ℚ := 10

/-- `HEAL_POWER` (healing per HEAL part, adjacent). -/
def HEAL_POWER : ℚ := 12

/-- `RANGED_HEAL_POWER` (healing per HEAL part at range). -/
def RANGED_HEAL_POWER : ℚ := 4

/-- `BODYPART_HITS` (hit points per body part). -/
def BODYPART_HITS : ℚ := 100

def ATTACK_RANGE : ℕ := 1

def RANGED_ATTACK_RANGE : ℕ := 3

def HEAL_RANGE : ℕ := 1

def RANGED_HEAL_RANGE : ℕ := 3

/-- `RANGED_ATTACK_DISTANCE_RATE` falloff table; `RANGED_ATTACK_DISTANCE_RATE[range] || 0`
for a range outside the table yields `0`. -/
def RANGED_ATTACK_DISTANCE_RATE : ℕ → ℚ
  | 0 => 1
  | 1 => 1
  | 2 => 2 / 5
  | 3 => 1 / 10
  | _ => 0

/-- `FATIGUE_COST_PLAIN`. -/
def FATIGUE_COST_PLAIN : WithTop ℕ := 2

/-- `FATIGUE_COST_SWAMP`. -/
def FATIGUE_COST_SWAMP : WithTop ℕ := 10

/-- Body part types (subset relevant to combat; `work`/`carry`/`tough` kept for
faithfulness of the body arrays). -/
inductive PartType where
  | move
  | work
  | carry
  | attack
  | ranged_attack
  | tough
  | heal
  deriving DecidableEq, Repr

/-- One body part: `{ type, hits }`. -/
structure BodyPart where
  type : PartType
  hits : ℚ
  deriving DecidableEq, Repr

/-- The mock creep.  `store` is omitted (never read by the engine);
`id`/`name` strings are modelled as numeric tokens. -/
structure Creep where
  id : ℕ
  name : ℕ
  x : ℤ
  y : ℤ
  my : Bool
  body : List BodyPart
  hitsMax : ℚ
  hits : ℚ
  fatigue : WithTop ℕ
  damageTaken : ℚ
  damageDealt : ℚ
  healingDone : ℚ
  healingReceived : ℚ
  deriving DecidableEq, Repr

/-- The `MockCreep` constructor: every part starts at `BODYPART_HITS`. -/
def mkCreep (id name : ℕ) (x y : ℤ) (bodyArr : List PartType) (my : Bool) : Creep :=
  { id := id
    name := name
    x := x
    y := y
    my := my
    body := bodyArr.map (fun t => { type := t, hits := BODYPART_HITS })
    hitsMax := (bodyArr.length : ℚ) * BODYPART_HITS
    hits := (bodyArr.length : ℚ) * BODYPART_HITS
    fatigue := 0
    damageTaken := 0
    damageDealt := 0
    healingDone := 0
    healingReceived := 0 }

/-- Placeholder creep used to totalize out-of-range list reads (`hits = 0`,
so it is never alive; unreachable in faithful executions). -/
def defaultCreep : Creep := mkCreep 0 0 0 0 [] true

/-- `getRangeTo`: Chebyshev distance. -/
def Creep.getRangeTo (c : Creep) (tx ty : ℤ) : ℕ :=
  max (c.x - tx).natAbs (c.y - ty).natAbs

/-- `getActiveBodyParts(type)`: functional parts of one type. -/
def Creep.getActiveBodyParts (c : Creep) (t : PartType) : ℕ :=
  (c.body.filter (fun p => p.type = t ∧ 0 < p.hits)).length

/-- `isAlive()`. -/
def Creep.isAlive (c : Creep) : Bool := 0 < c.hits

/-- The loop body of `applyDamage`: walk the part array front to back while
`remainingDamage > 0`; a part with positive hp absorbs `min(part.hits,
remainingDamage)`. -/
def damageParts : ℚ → List BodyPart → List BodyPart
  | _, [] => []
  | r, p :: ps =>
    if 0 < r then
      if 0 < p.hits then
        let d := min p.hits r
        { p with hits := p.hits - d } :: damageParts (r - d) ps
      else
        p :: damageParts r ps
    else
      p :: ps

/-- The loop body of `applyHealing`: restore parts front to back up to the
`BODYPART_HITS` cap while healing remains. -/
def healParts : ℚ → List BodyPart → List BodyPart
  | _, [] => []
  | r, p :: ps =>
    if 0 < r then
      if p.hits < BODYPART_HITS then
        let h := min (BODYPART_HITS - p.hits) r
        { p with hits := p.hits + h } :: healParts (r - h) ps
      else
        p :: healParts r ps
    else
      p :: ps

/-- Sum of part hit points (the recomputation `body.reduce((sum, part) =>
sum + part.hits, 0)`). -/
def sumHits (ps : List BodyPart) : ℚ :=
  ps.foldl (fun s p => s + p.hits) 0

/-- `applyDamage(damage)`. -/
def Creep.applyDamage (c : Creep) (damage : ℚ) : Creep :=
  let body' := damageParts damage c.body
  { c with body := body', hits := sumHits body', damageTaken := c.damageTaken + damage }

/-- `applyHealing(healing)`. -/
def Creep.applyHealing (c : Creep) (healing : ℚ) : Creep :=
  let body' := healParts healing c.body
  { c with body := body', hits := sumHits body', healingReceived := c.healingReceived + healing }

/-- `reduceFatigue()`: `fatigue = Math.max(0, fatigue - moveParts * 2)`;
truncated subtraction on `WithTop ℕ` matches this exactly (including the
`Infinity` corner). -/
def Creep.reduceFatigue (c : Creep) : Creep :=
  { c with fatigue := c.fatigue - ((c.getActiveBodyParts .move * 2 : ℕ) : WithTop ℕ) }

/-- Terrain: sparse cost overrides over a default cost; a wall is stored as
the infinite cost `⊤`. -/
structure Terrain where
  width : ℤ
  height : ℤ
  defaultCost : WithTop ℕ
  terrainMap : List ((ℤ × ℤ) × WithTop ℕ)
  deriving DecidableEq, Repr

/-- First-match association lookup (the newest binding is consed in front,
so this realizes the JS `Map`'s last-write-wins reads). -/
def posLookup {β : Type} : List ((ℤ × ℤ) × β) → ℤ × ℤ → Option β
  | [], _ => none
  | (k, v) :: rest, key => if k = key then some v else posLookup rest key

/-- `getCost(x,y)`: `terrainMap[key] || defaultCost` (a falsy stored `0`
would also fall back, kept faithfully even though `setTerrain` never
stores `0`). -/
def Terrain.getCost (t : Terrain) (x y : ℤ) : WithTop ℕ :=
  match posLookup t.terrainMap (x, y) with
  | some c => if c = 0 then t.defaultCost else c
  | none => t.defaultCost

inductive TerrainKind where
  | plain
  | swamp
  | wall
  deriving DecidableEq, Repr

/-- `setTerrain(x,y,type)`. -/
def Terrain.setTerrain (t : Terrain) (x y : ℤ) (kind : TerrainKind) : Terrain :=
  let cost : WithTop ℕ :=
    match kind with
    | .plain => FATIGUE_COST_PLAIN
    | .swamp => FATIGUE_COST_SWAMP
    | .wall => ⊤
  { t with terrainMap := ((x, y), cost) :: t.terrainMap }

/-- `isWalkable(x,y)`: in bounds and cost not `Infinity`. -/
def Terrain.isWalkable (t : Terrain) (x y : ℤ) : Bool :=
  if x < 0 ∨ x ≥ t.width ∨ y < 0 ∨ y ≥ t.height then false
  else decide (t.getCost x y ≠ ⊤)

/-- `clone()`: an independent copy (pure values, so a structural copy). -/
def Terrain.clone (t : Terrain) : Terrain :=
  { width := t.width, height := t.height, defaultCost := t.defaultCost, terrainMap := t.terrainMap }

/-- `toGrid()`: dense export with category codes plain = 0, wall = 1,
swamp = 2. -/
def Terrain.toGrid (t : Terrain) : List (List ℕ) :=
  (List.range t.height.toNat).map (fun y =>
    (List.range t.width.toNat).map (fun x =>
      let c := t.getCost (x : ℤ) (y : ℤ)
      if c = ⊤ then 1 else if c = FATIGUE_COST_SWAMP then 2 else 0))

/-- `isValidPosition` helper closed over by `moveTo`: walkable (when a
terrain was supplied) and collision-free (when a collision checker was
supplied). -/
def isValidPosition (terr : Option Terrain) (coll : Option (ℤ → ℤ → Bool)) (x y : ℤ) : Bool :=
  (match terr with
   | some t => t.isWalkable x y
   | none => true) &&
  (match coll with
   | some f => !f x y
   | none => true)

/-- The priority-ordered candidate destinations built by `moveTo` for unit
step `(dx, dy)` from `(x, y)`: preferred diagonal, cardinals toward the
target, the two other diagonals, then the two reverse cardinals. -/
def moveDirections (x y dx dy : ℤ) : List (ℤ × ℤ) :=
  (if dx ≠ 0 ∧ dy ≠ 0 then [(x + dx, y + dy)] else []) ++
  (if dx ≠ 0 then [(x + dx, y)] else []) ++
  (if dy ≠ 0 then [(x, y + dy)] else []) ++
  (if dx ≠ 0 ∧ dy ≠ 0 then [(x - dx, y + dy), (x + dx, y - dy)] else []) ++
  (if dx ≠ 0 then [(x - dx, y)] else []) ++
  (if dy ≠ 0 then [(x, y - dy)] else [])

/-- Fatigue added on arrival: the destination's terrain cost, `2` when no
terrain was supplied. -/
def moveCost (terr : Option Terrain) (p : ℤ × ℤ) : WithTop ℕ :=
  match terr with
  | some t => t.getCost p.1 p.2
  | none => 2

/-- `moveTo(target, terrain, collisionCheck)`. -/
def Creep.moveTo (c : Creep) (tx ty : ℤ) (terr : Option Terrain)
    (coll : Option (ℤ → ℤ → Bool)) : Creep × Int :=
  if 0 < c.fatigue then (c, ERR_NOT_IN_RANGE)
  else
    let dx := (tx - c.x).sign
    let dy := (ty - c.y).sign
    if dx = 0 ∧ dy = 0 then (c, OK)
    else
      match (moveDirections c.x c.y dx dy).find? (fun p => isValidPosition terr coll p.1 p.2) with
      | some p =>
        ({ c with x := p.1, y := p.2, fatigue := c.fatigue + moveCost terr p }, OK)
      | none => (c, ERR_NOT_IN_RANGE)

/-- Index-update on a list (the in-place mutation `this.creeps[i] = c`);
a no-op out of range. -/
def setIdx {α : Type} : List α → ℕ → α → List α
  | [], _, _ => []
  | _ :: xs, 0, a => a :: xs
  | x :: xs, n + 1, a => x :: setIdx xs n a

/-- One AI action record (`{type, from, to}`). -/
inductive BattleActionType where
  | attack
  | rangedAttack
  | heal
  | rangedHeal
  deriving DecidableEq, Repr

structure BattleAction where
  type : BattleActionType
  fromX : ℤ
  fromY : ℤ
  toX : ℤ
  toY : ℤ
  deriving DecidableEq, Repr

/-- Per-creep snapshot stored in a recorded frame. -/
structure CreepState where
  id : ℕ
  name : ℕ
  x : ℤ
  y : ℤ
  my : Bool
  hits : ℚ
  hitsMax : ℚ
  damageDealt : ℚ
  damageTaken : ℚ
  healingDone : ℚ
  healingReceived : ℚ
  fatigue : WithTop ℕ
  deriving DecidableEq, Repr

structure Frame where
  tick : ℕ
  creeps : List CreepState
  actions : List BattleAction
  deriving DecidableEq, Repr

/-- Normalized `spawnJitter` entropy record (the canonical form produced by
`normalizeSpawnJitter`; values are naturals after normalization). -/
structure SpawnJitterCfg where
  radius : ℕ
  attempts : ℕ
  perUnitRadius : ℕ
  perUnitAttempts : ℕ
  allowZeroOffset : Bool
  preserveFormation : Bool
  deriving DecidableEq, Repr

/-- Normalized `randomWalls` entropy record. -/
structure RandomWallsCfg where
  count : ℕ
  margin : ℕ
  minDistance : ℕ
  attempts : ℕ
  deriving DecidableEq, Repr

structure EntropyConfig where
  spawnJitter : Option SpawnJitterCfg
  randomWalls : Option RandomWallsCfg
  deriving DecidableEq, Repr

/-- The combat engine state.  `randomSource` becomes the stream `rng` with
cursor `rngIdx`; `battleLog`/`verbose` (console output only) are omitted. -/
structure Engine where
  maxTicks : ℕ
  creeps : List Creep
  tick : ℕ
  occupiedTiles : List ((ℤ × ℤ) × ℕ)
  terrain : Terrain
  baseTerrain : Terrain
  recordBattle : Bool
  recording : List Frame
  recordingTerrain : Option (List (List ℕ))
  entropy : Option EntropyConfig
  rng : ℕ → ℚ
  rngIdx : ℕ

/-- Read the creep at a roster index (total via `defaultCreep`, which is
dead and partless; indices are always in range in faithful runs). -/
def Engine.creepAt (e : Engine) (i : ℕ) : Creep :=
  e.creeps.getD i defaultCreep

def Engine.setCreep (e : Engine) (i : ℕ) (c : Creep) : Engine :=
  { e with creeps := setIdx e.creeps i c }

/-- `updateOccupancy` body: map every living creep's cell to its index.
Later creeps are placed in front so that first-match lookup realizes the
JS `Map.set` overwrite (last write wins). -/
def buildOcc : List Creep → ℕ → List ((ℤ × ℤ) × ℕ)
  | [], _ => []
  | c :: cs, i => buildOcc cs (i + 1) ++ (if c.isAlive then [((c.x, c.y), i)] else [])

def Engine.updateOccupancy (e : Engine) : Engine :=
  { e with occupiedTiles := buildOcc e.creeps 0 }

/-- `isOccupied(x, y, ignoredCreep)`: a living occupant other than the
ignored creep. -/
def Engine.isOccupied (e : Engine) (x y : ℤ) (ign : Option ℕ) : Bool :=
  match posLookup e.occupiedTiles (x, y) with
  | some k => decide (some k ≠ ign) && (e.creepAt k).isAlive
  | none => false

/-- Indices of living creeps, roster order (`getAliveCreeps(null)`). -/
def Engine.aliveIdxs (e : Engine) : List ℕ :=
  (List.range e.creeps.length).filter (fun i => (e.creepAt i).isAlive)

/-- Indices of living creeps of one team, roster order (`getAliveCreeps(my)`). -/
def Engine.aliveTeamIdxs (e : Engine) (my : Bool) : List ℕ :=
  (List.range e.creeps.length).filter (fun i => (e.creepAt i).isAlive && (e.creepAt i).my == my)

/-- `findNearestEnemy`: `reduce` with strict `<` against the accumulator
(`Infinity` for the initial `null`), so the first enemy found wins ties. -/
def Engine.findNearestEnemy (e : Engine) (i : ℕ) : Option ℕ :=
  (e.aliveTeamIdxs !(e.creepAt i).my).foldl
    (fun acc j =>
      match acc with
      | none => some j
      | some k =>
        if (e.creepAt i).getRangeTo (e.creepAt j).x (e.creepAt j).y <
            (e.creepAt i).getRangeTo (e.creepAt k).x (e.creepAt k).y
        then some j else acc)
    none

/-- `findMostDamagedFriendly`: among living same-team creeps with
`hits < hitsMax`, the strictly lowest `hits`, first found winning ties
(`reduce` without seed). -/
def Engine.findMostDamagedFriendly (e : Engine) (i : ℕ) : Option ℕ :=
  match (e.aliveTeamIdxs (e.creepAt i).my).filter
      (fun j => (e.creepAt j).hits < (e.creepAt j).hitsMax) with
  | [] => none
  | j :: rest =>
    some (rest.foldl (fun k l => if (e.creepAt l).hits < (e.creepAt k).hits then l else k) j)

/-- `findMostDamagedEnemy`: strictly lowest `hits/hitsMax` fraction; the
`null` accumulator counts as fraction `1`, so if every enemy is at full
health the result is `null`. -/
def Engine.findMostDamagedEnemy (e : Engine) (i : ℕ) : Option ℕ :=
  (e.aliveTeamIdxs !(e.creepAt i).my).foldl
    (fun acc j =>
      let hp := (e.creepAt j).hits / (e.creepAt j).hitsMax
      let accHp : ℚ :=
        match acc with
        | some k => (e.creepAt k).hits / (e.creepAt k).hitsMax
        | none => 1
      if hp < accHp then some j else acc)
    none

/-- `attack(target)` as an engine step on roster indices: validations read
the pre-state, then the target takes damage and the attacker's
`damageDealt` grows, as two sequential writes. -/
def Engine.engineAttack (e : Engine) (i j : ℕ) : Engine × Int :=
  let a := e.creepAt i
  let t := e.creepAt j
  if !t.isAlive then (e, ERR_INVALID_TARGET)
  else if ATTACK_RANGE < a.getRangeTo t.x t.y then (e, ERR_NOT_IN_RANGE)
  else if a.getActiveBodyParts .attack = 0 then (e, ERR_NO_BODYPART)
  else
    let damage := (a.getActiveBodyParts .attack : ℚ) * ATTACK_POWER
    let e1 := e.setCreep j ((e.creepAt j).applyDamage damage)
    let e2 := e1.setCreep i
      { e1.creepAt i with damageDealt := (e1.creepAt i).damageDealt + damage }
    (e2, OK)

/-- `rangedAttack(target)`: distance falloff applied to the base power. -/
def Engine.engineRangedAttack (e : Engine) (i j : ℕ) : Engine × Int :=
  let a := e.creepAt i
  let t := e.creepAt j
  if !t.isAlive then (e, ERR_INVALID_TARGET)
  else if RANGED_ATTACK_RANGE < a.getRangeTo t.x t.y then (e, ERR_NOT_IN_RANGE)
  else if a.getActiveBodyParts .ranged_attack = 0 then (e, ERR_NO_BODYPART)
  else
    let damage := (a.getActiveBodyParts .ranged_attack : ℚ) * RANGED_ATTACK_POWER *
      RANGED_ATTACK_DISTANCE_RATE (a.getRangeTo t.x t.y)
    let e1 := e.setCreep j ((e.creepAt j).applyDamage damage)
    let e2 := e1.setCreep i
      { e1.creepAt i with damageDealt := (e1.creepAt i).damageDealt + damage }
    (e2, OK)

/-- `heal(target)`. -/
def Engine.engineHeal (e : Engine) (i j : ℕ) : Engine × Int :=
  let a := e.creepAt i
  let t := e.creepAt j
  if !t.isAlive then (e, ERR_INVALID_TARGET)
  else if HEAL_RANGE < a.getRangeTo t.x t.y then (e, ERR_NOT_IN_RANGE)
  else if a.getActiveBodyParts .heal = 0 then (e, ERR_NO_BODYPART)
  else
    let healing := (a.getActiveBodyParts .heal : ℚ) * HEAL_POWER
    let e1 := e.setCreep j ((e.creepAt j).applyHealing healing)
    let e2 := e1.setCreep i
      { e1.creepAt i with healingDone := (e1.creepAt i).healingDone + healing }
    (e2, OK)

/-- `rangedHeal(target)`. -/
def Engine.engineRangedHeal (e : Engine) (i j : ℕ) : Engine × Int :=
  let a := e.creepAt i
  let t := e.creepAt j
  if !t.isAlive then (e, ERR_INVALID_TARGET)
  else if RANGED_HEAL_RANGE < a.getRangeTo t.x t.y then (e, ERR_NOT_IN_RANGE)
  else if a.getActiveBodyParts .heal = 0 then (e, ERR_NO_BODYPART)
  else
    let healing := (a.getActiveBodyParts .heal : ℚ) * RANGED_HEAL_POWER
    let e1 := e.setCreep j ((e.creepAt j).applyHealing healing)
    let e2 := e1.setCreep i
      { e1.creepAt i with healingDone := (e1.creepAt i).healingDone + healing }
    (e2, OK)

/-- `creep.moveTo(target, this.terrain, (x, y) => this.isOccupied(x, y, creep))`
as an engine step: the collision closure reads the engine's occupancy map
(stale within a turn) but the creeps' current aliveness. -/
def Engine.engineMove (e : Engine) (i : ℕ) (tx ty : ℤ) : Engine × Int :=
  let (c', st) := (e.creepAt i).moveTo tx ty (some e.terrain)
    (some (fun x y => e.isOccupied x y (some i)))
  (e.setCreep i c', st)

/-- Healer behaviour of `runSimpleAI` once a damaged friendly `j` was
found: heal at range ≤ 1, ranged-heal at range ≤ 3, move closer when
range > 2; the action is pushed regardless of the call's status, and the
creep performs no offensive action afterwards. -/
def Engine.healBranch (e : Engine) (i j : ℕ) : Engine × List BattleAction :=
  let c := e.creepAt i
  let d := e.creepAt j
  let range := c.getRangeTo d.x d.y
  let (e1, acts) :=
    if range ≤ 1 then
      ((e.engineHeal i j).1,
        [{ type := .heal, fromX := c.x, fromY := c.y, toX := d.x, toY := d.y }])
    else if range ≤ 3 then
      ((e.engineRangedHeal i j).1,
        [{ type := .rangedHeal, fromX := c.x, fromY := c.y, toX := d.x, toY := d.y }])
    else (e, [])
  let e2 :=
    if 2 < range then
      (e1.engineMove i (e1.creepAt j).x (e1.creepAt j).y).1
    else e1
  (e2, acts)

/-- Ranged-only behaviour: attack at range ≤ 3, then kite — flee from a
healthy enemy when healthy and close, commit to a weak one, close distance
beyond range 3, hold at exactly range 3.  Health fractions are read after
the attack, as in the source. -/
def Engine.rangedBranch (e : Engine) (i j : ℕ) : Engine × List BattleAction :=
  let c := e.creepAt i
  let t := e.creepAt j
  let range := c.getRangeTo t.x t.y
  let (e1, acts) :=
    if range ≤ 3 then
      ((e.engineRangedAttack i j).1,
        [{ type := .rangedAttack, fromX := c.x, fromY := c.y, toX := t.x, toY := t.y }])
    else (e, [])
  let ci := e1.creepAt i
  let tj := e1.creepAt j
  let healthPercent := ci.hits / ci.hitsMax
  let enemyHealthPercent := tj.hits / tj.hitsMax
  let e2 :=
    if range ≤ 2 ∧ 1 / 2 < healthPercent then
      if 3 / 10 < enemyHealthPercent then
        (e1.engineMove i (ci.x + (ci.x - tj.x)) (ci.y + (ci.y - tj.y))).1
      else
        (e1.engineMove i tj.x tj.y).1
    else if 3 < range then
      (e1.engineMove i tj.x tj.y).1
    else e1
  (e2, acts)

/-- Melee behaviour: attack when adjacent, otherwise move toward the target
and attack immediately if the move brought it adjacent. -/
def Engine.meleeBranch (e : Engine) (i j : ℕ) : Engine × List BattleAction :=
  let c := e.creepAt i
  let t := e.creepAt j
  let range := c.getRangeTo t.x t.y
  if range ≤ 1 then
    ((e.engineAttack i j).1,
      [{ type := .attack, fromX := c.x, fromY := c.y, toX := t.x, toY := t.y }])
  else
    let e1 := (e.engineMove i t.x t.y).1
    let c1 := e1.creepAt i
    let t1 := e1.creepAt j
    if c1.getRangeTo t1.x t1.y ≤ 1 then
      ((e1.engineAttack i j).1,
        [{ type := .attack, fromX := c1.x, fromY := c1.y, toX := t1.x, toY := t1.y }])
    else (e1, [])

/-- Hybrid behaviour as written in the source (`else if (hasRanged &&
hasMelee)` — unreachable, since the plain melee branch already catches
that case). -/
def Engine.hybridBranch (e : Engine) (i j : ℕ) : Engine × List BattleAction :=
  let c := e.creepAt i
  let t := e.creepAt j
  let range := c.getRangeTo t.x t.y
  if range ≤ 1 then
    ((e.engineAttack i j).1,
      [{ type := .attack, fromX := c.x, fromY := c.y, toX := t.x, toY := t.y }])
  else if range ≤ 3 then
    let (e1, _) := e.engineRangedAttack i j
    let e2 := (e1.engineMove i (e1.creepAt j).x (e1.creepAt j).y).1
    (e2, [{ type := .rangedAttack, fromX := c.x, fromY := c.y, toX := t.x, toY := t.y }])
  else
    ((e.engineMove i t.x t.y).1, [])

/-- The loadout dispatch of `runSimpleAI` against the chosen target. -/
def Engine.dispatchBranch (e : Engine) (i j : ℕ) : Engine × List BattleAction :=
  let hasRanged := 0 < (e.creepAt i).getActiveBodyParts .ranged_attack
  let hasMelee := 0 < (e.creepAt i).getActiveBodyParts .attack
  if hasRanged ∧ ¬hasMelee then e.rangedBranch i j
  else if hasMelee then e.meleeBranch i j
  else if hasRanged ∧ hasMelee then e.hybridBranch i j
  else (e, [])

/-- Offensive part of `runSimpleAI`: focus the weakest enemy unless it is
farther than range 5, in which case fall back to the nearest. -/
def Engine.offensiveStep (e : Engine) (i : ℕ) : Engine × List BattleAction :=
  let weakest := e.findMostDamagedEnemy i
  let nearest := e.findNearestEnemy i
  match nearest with
  | none => (e, [])
  | some n =>
    let target :=
      match weakest with
      | some w =>
        if 5 < (e.creepAt i).getRangeTo (e.creepAt w).x (e.creepAt w).y then n else w
      | none => n
    e.dispatchBranch i target

/-- `runSimpleAI(creep)`: healers with a damaged friendly heal and never
attack that tick; everyone else runs the offensive branch. -/
def Engine.runSimpleAI (e : Engine) (i : ℕ) : Engine × List BattleAction :=
  if 0 < (e.creepAt i).getActiveBodyParts .heal then
    match e.findMostDamagedFriendly i with
    | some j => e.healBranch i j
    | none => e.offensiveStep i
  else e.offensiveStep i

/-- `recordFrame(actions)`: capture the terrain grid on the first frame,
then append the per-creep snapshots and the tick's actions. -/
def Engine.recordFrame (e : Engine) (actions : List BattleAction) : Engine :=
  let e := if e.recording.isEmpty then { e with recordingTerrain := some e.terrain.toGrid } else e
  let states := e.creeps.map (fun c =>
    { id := c.id, name := c.name, x := c.x, y := c.y, my := c.my, hits := c.hits
      hitsMax := c.hitsMax, damageDealt := c.damageDealt, damageTaken := c.damageTaken
      healingDone := c.healingDone, healingReceived := c.healingReceived
      fatigue := c.fatigue : CreepState })
  { e with recording := e.recording ++ [{ tick := e.tick, creeps := states, actions := actions }] }

/-- `executeTick()`: advance the tick, reduce fatigue, rebuild occupancy,
run the AI for every creep alive at tick start — rebuilding occupancy
after each one — record a frame, and report whether the battle continues. -/
def Engine.executeTick (e : Engine) : Engine × Bool :=
  let e := { e with tick := e.tick + 1 }
  let e := { e with creeps := e.creeps.map (fun c : Creep => if c.isAlive then c.reduceFatigue else c) }
  let e := e.updateOccupancy
  let alive := e.aliveIdxs
  let (e, allActions) := alive.foldl
    (fun (s : Engine × List BattleAction) i =>
      let (e', acts) := s.1.runSimpleAI i
      (e'.updateOccupancy, s.2 ++ acts))
    (e, [])
  let e := e.updateOccupancy
  let e := if e.recordBattle then e.recordFrame allActions else e
  let friendliesAlive := (e.aliveTeamIdxs true).length
  let enemiesAlive := (e.aliveTeamIdxs false).length
  (e, decide (0 < friendliesAlive) && decide (0 < enemiesAlive) && decide (e.tick < e.maxTicks))

/-- Winner labels of `getBattleResults` (`'player'` is the friendly side). -/
inductive Winner where
  | player
  | enemy
  | draw
  deriving DecidableEq, Repr

structure SideResult where
  survivors : ℕ
  totalDamage : ℚ
  totalHealing : ℚ
  deriving DecidableEq, Repr

structure BattleResult where
  winner : Winner
  ticks : ℕ
  player : SideResult
  enemy : SideResult
  deriving DecidableEq, Repr

/-- `getBattleResults()`: `'player'` when any friendly survives, else
`'enemy'` when any enemy survives, else `'draw'`. -/
def Engine.getBattleResults (e : Engine) : BattleResult :=
  let friendlies := e.aliveTeamIdxs true
  let enemies := e.aliveTeamIdxs false
  let winner :=
    if 0 < friendlies.length then Winner.player
    else if 0 < enemies.length then Winner.enemy
    else Winner.draw
  let fs := e.creeps.filter (fun c => c.my)
  let es := e.creeps.filter (fun c => !c.my)
  { winner := winner
    ticks := e.tick
    player :=
      { survivors := friendlies.length
        totalDamage := fs.foldl (fun s c => s + c.damageDealt) 0
        totalHealing := fs.foldl (fun s c => s + c.healingDone) 0 }
    enemy :=
      { survivors := enemies.length
        totalDamage := es.foldl (fun s c => s + c.damageDealt) 0
        totalHealing := es.foldl (fun s c => s + c.healingDone) 0 } }

/-- The `while (this.executeTick()) {}` loop, bounded by explicit fuel (the
termination theorem shows `maxTicks + 1` fuel is never exhausted).  Also
counts the number of `executeTick` calls. -/
def runBattleLoop : Engine → ℕ → Engine × ℕ
  | e, 0 => (e, 0)
  | e, fuel + 1 =>
    let (e', cont) := e.executeTick
    if cont then
      let (e'', n) := runBattleLoop e' fuel
      (e'', n + 1)
    else (e', 1)

/-- `runBattle()`: reset the tick counter, loop, and compute the results. -/
def Engine.runBattle (e : Engine) : Engine × BattleResult :=
  let e0 := { e with tick := 0 }
  let (e1, _) := runBattleLoop e0 (e0.maxTicks + 1)
  (e1, e1.getBattleResults)

/-- `randomInt(min, max)`: swap a reversed range, return `min` without
consuming the source when the range is a point, otherwise
`Math.floor(randomSource() * (max - min + 1)) + min`, advancing the
stream cursor. -/
def Engine.randomInt (e : Engine) (lo hi : ℤ) : ℤ × Engine :=
  let lo' := if hi < lo then hi else lo
  let hi' := if hi < lo then lo else hi
  if hi' = lo' then (lo', e)
  else (⌊e.rng e.rngIdx * ((hi' - lo' + 1 : ℤ) : ℚ)⌋ + lo', { e with rngIdx := e.rngIdx + 1 })

/-- `isValidSpawnPosition(x, y, occupied)`: in bounds, walkable, and not in
the occupied set. -/
def Engine.isValidSpawnPosition (e : Engine) (x y : ℤ) (occupied : List (ℤ × ℤ)) : Bool :=
  if x < 0 ∨ y < 0 ∨ x ≥ e.terrain.width ∨ y ≥ e.terrain.height then false
  else if !e.terrain.isWalkable x y then false
  else !decide ((x, y) ∈ occupied)

/-- `isGroupOffsetValid(creeps, occupied, offset)`: the offset keeps every
creep of the group on a valid spawn cell. -/
def Engine.isGroupOffsetValid (e : Engine) (creeps : List Creep) (occupied : List (ℤ × ℤ))
    (off : ℤ × ℤ) : Bool :=
  creeps.all (fun c => e.isValidSpawnPosition (c.x + off.1) (c.y + off.2) occupied)

/-- The random-attempt loop of `findGroupOffset`: up to `attempts` draws of
`(dx, dy)` within `±radius`, skipping the zero offset, returning the first
that validates. -/
def Engine.tryRandomOffsets (e : Engine) (creeps : List Creep) (occupied : List (ℤ × ℤ))
    (radius : ℕ) : ℕ → Option (ℤ × ℤ) × Engine
  | 0 => (none, e)
  | n + 1 =>
    let (dx, e1) := e.randomInt (-(radius : ℤ)) (radius : ℤ)
    let (dy, e2) := e1.randomInt (-(radius : ℤ)) (radius : ℤ)
    if dx = 0 ∧ dy = 0 then e2.tryRandomOffsets creeps occupied radius n
    else if e2.isGroupOffsetValid creeps occupied (dx, dy) then (some (dx, dy), e2)
    else e2.tryRandomOffsets creeps occupied radius n

/-- The four single-axis fallback offsets tried at one distance, in source
order. -/
def fallbackOffsets (d : ℕ) : List (ℤ × ℤ) :=
  [((d : ℤ), 0), (-(d : ℤ), 0), (0, (d : ℤ)), (0, -(d : ℤ))]

/-- The fallback ladder of `findGroupOffset` when `allowZeroOffset` is
false: scan distances from `radius` DOWN to 1, trying `(d,0)`, `(-d,0)`,
`(0,d)`, `(0,-d)` at each, and fall back to the zero offset when nothing
validates. -/
def Engine.groupOffsetFallbackScan (e : Engine) (creeps : List Creep)
    (occupied : List (ℤ × ℤ)) : ℕ → ℤ × ℤ
  | 0 => (0, 0)
  | d + 1 =>
    match (fallbackOffsets (d + 1)).find? (fun o => e.isGroupOffsetValid creeps occupied o) with
    | some o => o
    | none => e.groupOffsetFallbackScan creeps occupied d

/-- `findGroupOffset(creeps, occupied, config)`. -/
def Engine.findGroupOffset (e : Engine) (creeps : List Creep) (occupied : List (ℤ × ℤ))
    (cfg : SpawnJitterCfg) : (ℤ × ℤ) × Engine :=
  let radius := max 0 cfg.radius
  let attempts := max 1 cfg.attempts
  if radius = 0 then ((0, 0), e)
  else
    match e.tryRandomOffsets creeps occupied radius attempts with
    | (some o, e') => (o, e')
    | (none, e') =>
      if cfg.allowZeroOffset = false then
        (e'.groupOffsetFallbackScan creeps occupied radius, e')
      else ((0, 0), e')

/-- `resolveGroupOffsetWithFallback`: a still-valid preferred offset (e.g.
from a replayed context) wins, otherwise search. -/
def Engine.resolveGroupOffsetWithFallback (e : Engine) (creeps : List Creep)
    (occupied : List (ℤ × ℤ)) (cfg : SpawnJitterCfg) (preferred : Option (ℤ × ℤ)) :
    (ℤ × ℤ) × Engine :=
  match preferred with
  | some p => if e.isGroupOffsetValid creeps occupied p then (p, e) else
      e.findGroupOffset creeps occupied cfg
  | none => e.findGroupOffset creeps occupied cfg

/-- Set insertion / removal for the occupied-cell set (`Set` of `"x,y"`
keys in the source; only membership is ever queried). -/
def insertPos (l : List (ℤ × ℤ)) (p : ℤ × ℤ) : List (ℤ × ℤ) :=
  if p ∈ l then l else p :: l

def removePos (l : List (ℤ × ℤ)) (p : ℤ × ℤ) : List (ℤ × ℤ) :=
  l.filter (fun q => q ≠ p)

/-- The per-team closure `applyForTeam` of `applySpawnEntropy`: vacate the
team's cells, resolve its group offset, shift the whole team, and re-add
its (possibly new) cells. -/
def Engine.applyForTeam (e : Engine) (occupied : List (ℤ × ℤ)) (team : Bool)
    (preferred : Option (ℤ × ℤ)) (cfg : SpawnJitterCfg) :
    Engine × List (ℤ × ℤ) × (ℤ × ℤ) :=
  let creeps := e.creeps.filter (fun c => c.my = team)
  if creeps.length = 0 then (e, occupied, (0, 0))
  else
    let occ1 := creeps.foldl (fun o c => removePos o (c.x, c.y)) occupied
    let (off, e1) := e.resolveGroupOffsetWithFallback creeps occ1 cfg preferred
    let e2 :=
      if off.1 ≠ 0 ∨ off.2 ≠ 0 then
        { e1 with creeps := e1.creeps.map (fun c : Creep =>
            if c.my = team then { c with x := c.x + off.1, y := c.y + off.2 } else c) }
      else e1
    let occ2 := (e2.creeps.filter (fun c => c.my = team)).foldl
      (fun o c => insertPos o (c.x, c.y)) occ1
    (e2, occ2, off)

/-- One attempt loop of `applyPerUnitJitter` for a single creep. -/
def Engine.perUnitTry (e : Engine) (x y : ℤ) (occ : List (ℤ × ℤ)) (radius : ℕ) :
    ℕ → Option (ℤ × ℤ) × Engine
  | 0 => (none, e)
  | n + 1 =>
    let (dx, e1) := e.randomInt (-(radius : ℤ)) (radius : ℤ)
    let (dy, e2) := e1.randomInt (-(radius : ℤ)) (radius : ℤ)
    if dx = 0 ∧ dy = 0 then e2.perUnitTry x y occ radius n
    else if e2.isValidSpawnPosition (x + dx) (y + dy) occ then (some (dx, dy), e2)
    else e2.perUnitTry x y occ radius n

/-- The per-creep body of `applyPerUnitJitter`: vacate the creep's cell,
try random per-unit offsets, on failure (with `allowZeroOffset === false`)
try the four unit fallbacks, then re-occupy the final cell. -/
def Engine.perUnitStep (e : Engine) (occ : List (ℤ × ℤ)) (log : List (ℕ × ℤ × ℤ))
    (cfg : SpawnJitterCfg) (i : ℕ) : Engine × List (ℤ × ℤ) × List (ℕ × ℤ × ℤ) :=
  let c := e.creepAt i
  if !c.isAlive then (e, occ, log)
  else
    let occ1 := removePos occ (c.x, c.y)
    match e.perUnitTry c.x c.y occ1 (max 0 cfg.perUnitRadius) (max 1 cfg.perUnitAttempts) with
    | (some (dx, dy), e1) =>
      let e2 := e1.setCreep i { e1.creepAt i with x := c.x + dx, y := c.y + dy }
      let c2 := e2.creepAt i
      (e2, insertPos occ1 (c2.x, c2.y), log ++ [(c.id, dx, dy)])
    | (none, e1) =>
      if cfg.allowZeroOffset = false then
        match [((1 : ℤ), (0 : ℤ)), (-1, 0), (0, 1), (0, -1)].find?
            (fun f => e1.isValidSpawnPosition (c.x + f.1) (c.y + f.2) occ1) with
        | some f =>
          let e2 := e1.setCreep i { e1.creepAt i with x := c.x + f.1, y := c.y + f.2 }
          let c2 := e2.creepAt i
          (e2, insertPos occ1 (c2.x, c2.y), log ++ [(c.id, f.1, f.2)])
        | none => (e1, insertPos occ1 (c.x, c.y), log)
      else (e1, insertPos occ1 (c.x, c.y), log)

/-- `applyPerUnitJitter(config, occupied)`. -/
def Engine.applyPerUnitJitter (e : Engine) (cfg : SpawnJitterCfg) (occ : List (ℤ × ℤ)) :
    Engine × List (ℤ × ℤ) × List (ℕ × ℤ × ℤ) :=
  if max 0 cfg.perUnitRadius = 0 then (e, occ, [])
  else
    (List.range e.creeps.length).foldl
      (fun (s : Engine × List (ℤ × ℤ) × List (ℕ × ℤ × ℤ)) i =>
        s.1.perUnitStep s.2.1 s.2.2 cfg i)
      (e, occ, [])

/-- The battle context created by `createBattleContext(iteration)` and
filled in by the entropy passes. -/
structure BattleContext where
  iteration : ℕ
  walls : Option (List (ℤ × ℤ))
  spawnOffsets : Option ((ℤ × ℤ) × (ℤ × ℤ))
  perUnitJitter : Option (List (ℕ × ℤ × ℤ))
  deriving DecidableEq, Repr

def createBattleContext (iteration : ℕ) : BattleContext :=
  { iteration := iteration, walls := none, spawnOffsets := none, perUnitJitter := none }

/-- `applySpawnEntropy(battleContext, setupResult)`. -/
def Engine.applySpawnEntropy (e : Engine) (ctx : BattleContext)
    (setupOffsets : Option ((ℤ × ℤ) × (ℤ × ℤ))) : Engine × BattleContext :=
  match e.entropy.bind (fun ec => ec.spawnJitter) with
  | none => (e, ctx)
  | some cfg =>
    let occupied := e.creeps.foldl (fun o c => insertPos o (c.x, c.y)) []
    let prefP := (setupOffsets.map (fun p => p.1)).orElse
      (fun _ => ctx.spawnOffsets.map (fun p => p.1))
    let prefE := (setupOffsets.map (fun p => p.2)).orElse
      (fun _ => ctx.spawnOffsets.map (fun p => p.2))
    let (e1, occ1, offP) := e.applyForTeam occupied true prefP cfg
    let (e2, occ2, offE) := e1.applyForTeam occ1 false prefE cfg
    let (e3, _occ3, log) :=
      if 0 < cfg.perUnitRadius ∧ cfg.preserveFormation = false then
        e2.applyPerUnitJitter cfg occ2
      else (e2, occ2, [])
    let ctx' := { ctx with
      spawnOffsets := some (offP, offE)
      perUnitJitter := if log.isEmpty then ctx.perUnitJitter else some log }
    (e3.updateOccupancy, ctx')

/-- One wall's attempt loop in `applyTerrainEntropy`: random cells inside
the margins until one is walkable and not Manhattan-closer than
`minDistance` to any wall already placed this battle. -/
def Engine.wallAttempt (e : Engine) (minX maxX minY maxY : ℤ) (minDistance : ℕ)
    (placed : List (ℤ × ℤ)) : ℕ → Option (ℤ × ℤ) × Engine
  | 0 => (none, e)
  | n + 1 =>
    let (x, e1) := e.randomInt minX maxX
    let (y, e2) := e1.randomInt minY maxY
    if !e2.terrain.isWalkable x y then
      e2.wallAttempt minX maxX minY maxY minDistance placed n
    else if placed.any (fun w => (w.1 - x).natAbs + (w.2 - y).natAbs ≤ minDistance) then
      e2.wallAttempt minX maxX minY maxY minDistance placed n
    else (some (x, y), e2)

/-- The outer wall loop: stop placing as soon as one wall exhausts its
attempts (partial placement is not an error). -/
def Engine.placeWalls (e : Engine) (minX maxX minY maxY : ℤ) (minDistance attempts : ℕ)
    (placed : List (ℤ × ℤ)) : ℕ → Engine × List (ℤ × ℤ)
  | 0 => (e, placed)
  | count + 1 =>
    match e.wallAttempt minX maxX minY maxY minDistance placed attempts with
    | (some w, e1) =>
      let e2 := { e1 with terrain := e1.terrain.setTerrain w.1 w.2 .wall }
      e2.placeWalls minX maxX minY maxY minDistance attempts (placed ++ [w]) count
    | (none, e1) => (e1, placed)

/-- `applyTerrainEntropy(battleContext)`. -/
def Engine.applyTerrainEntropy (e : Engine) (ctx : BattleContext) : Engine × BattleContext :=
  match e.entropy.bind (fun ec => ec.randomWalls) with
  | none => (e, ctx)
  | some cfg =>
    let minX : ℤ := max 0 (cfg.margin : ℤ)
    let maxX : ℤ := min (e.terrain.width - 1) (e.terrain.width - (cfg.margin : ℤ) - 1)
    let minY : ℤ := max 0 (cfg.margin : ℤ)
    let maxY : ℤ := min (e.terrain.height - 1) (e.terrain.height - (cfg.margin : ℤ) - 1)
    if maxX < minX ∨ maxY < minY then (e, ctx)
    else
      let (e', walls) := e.placeWalls minX maxX minY maxY cfg.minDistance cfg.attempts [] cfg.count
      (e', { ctx with walls := some walls })

/-- `reset(battleContext)`: clear roster/tick/occupancy/recording, clone
the template terrain, and apply wall entropy to the fresh clone. -/
def Engine.reset (e : Engine) (ctx : BattleContext) : Engine × BattleContext :=
  let e1 := { e with creeps := [], tick := 0, occupiedTiles := [], recording := []
                     recordingTerrain := none, terrain := e.baseTerrain.clone }
  match e1.entropy with
  | some ec =>
    match ec.randomWalls with
    | some _ => e1.applyTerrainEntropy ctx
    | none => (e1, ctx)
  | none => (e1, ctx)

/-- `addCreep(creep)`. -/
def Engine.addCreep (e : Engine) (c : Creep) : Engine :=
  { e with creeps := e.creeps ++ [c] }

structure Recording where
  totalTicks : ℕ
  terrain : Option (List (List ℕ))
  frames : List Frame
  maxTicks : ℕ
  gridSize : ℤ
  deriving DecidableEq, Repr

/-- `exportRecording()`. -/
def Engine.exportRecording (e : Engine) : Recording :=
  { totalTicks := e.tick
    terrain := e.recordingTerrain
    frames := e.recording
    maxTicks := e.maxTicks
    gridSize := e.terrain.width }

/-- Engine construction options (`entropy` already in the canonical form
produced by `normalizeEntropyConfig`). -/
structure EngineConfig where
  maxTicks : ℕ
  terrain : Option Terrain
  recordBattle : Bool
  entropy : Option EntropyConfig

/-- The `CombatEngine` constructor: `maxTicks || 1000`, terrain cloned from
the supplied template or a fresh 100×100 swamp map, followed by the
constructor's own `reset()`. -/
def mkEngine (cfg : EngineConfig) (rng : ℕ → ℚ) : Engine :=
  let base : Terrain :=
    match cfg.terrain with
    | some t => t.clone
    | none => { width := 100, height := 100, defaultCost := FATIGUE_COST_SWAMP, terrainMap := [] }
  let e : Engine :=
    { maxTicks := if cfg.maxTicks = 0 then 1000 else cfg.maxTicks
      creeps := []
      tick := 0
      occupiedTiles := []
      terrain := base.clone
      baseTerrain := base
      recordBattle := cfg.recordBattle
      recording := []
      recordingTerrain := none
      entropy := cfg.entropy
      rng := rng
      rngIdx := 0 }
  (e.reset (createBattleContext 0)).1

/-- One iteration of `runMultipleBattles`: reset against a fresh battle
context, let the setup callback populate the roster, apply spawn entropy,
run the battle, and export the recording — the whole pipeline as a pure
function of the configuration, the roster and the random stream. -/
def runOneRecordedBattle (cfg : EngineConfig) (rng : ℕ → ℚ) (roster : List Creep) :
    Recording × BattleResult :=
  let e := mkEngine cfg rng
  let (e1, ctx1) := e.reset (createBattleContext 0)
  let e2 := roster.foldl (fun acc c => acc.addCreep c) e1
  let (e3, _ctx2) := e2.applySpawnEntropy ctx1 none
  let (e4, result) := e3.runBattle
  (e4.exportRecording, result)

/-! ## Generic list lemmas -/

theorem find?_decomp {α : Type} (p : α → Bool) (l : List α) :
    (∃ a pre post, l = pre ++ a :: post ∧ (∀ b ∈ pre, p b = false) ∧ p a = true ∧
      l.find? p = some a) ∨
    ((∀ b ∈ l, p b = false) ∧ l.find? p = none) := by
  induction l with
  | nil => exact Or.inr ⟨by simp, rfl⟩
  | cons x xs ih =>
    cases hx : p x with
    | true =>
      exact Or.inl ⟨x, [], xs, by simp, by simp, hx, by simp [List.find?_cons, hx]⟩
    | false =>
      rcases ih with ⟨a, pre, post, hsplit, hpre, hpa, hfind⟩ | ⟨hall, hfind⟩
      · refine Or.inl ⟨a, x :: pre, post, by simp [hsplit], ?_, hpa,
          by simp [List.find?_cons, hx, hfind]⟩
        intro b hb
        rcases List.mem_cons.mp hb with rfl | hb
        · exact hx
        · exact hpre b hb
      · refine Or.inr ⟨?_, by simp [List.find?_cons, hx, hfind]⟩
        intro b hb
        rcases List.mem_cons.mp hb with rfl | hb
        · exact hx
        · exact hall b hb

theorem setIdx_length {α : Type} (l : List α) (i : ℕ) (a : α) :
    (setIdx l i a).length = l.length := by
  induction l generalizing i with
  | nil => cases i <;> rfl
  | cons x xs ih => cases i with
    | zero => rfl
    | succ n => simpa [setIdx] using ih n

theorem getD_setIdx_self {α : Type} (l : List α) (i : ℕ) (a d : α) (h : i < l.length) :
    (setIdx l i a).getD i d = a := by
  induction l generalizing i with
  | nil => simp at h
  | cons x xs ih =>
    cases i with
    | zero => rfl
    | succ n => simpa [setIdx] using ih n (by simpa using h)

theorem getD_setIdx_ne {α : Type} (l : List α) (i j : ℕ) (a d : α) (h : j ≠ i) :
    (setIdx l i a).getD j d = l.getD j d := by
  induction l generalizing i j with
  | nil => cases i <;> rfl
  | cons x xs ih =>
    cases i with
    | zero => cases j with
      | zero => exact absurd rfl h
      | succ m => rfl
    | succ n => cases j with
      | zero => rfl
      | succ m => simpa [setIdx] using ih n m (fun hc => h (by omega))

theorem getD_setIdx_ge {α : Type} (l : List α) (i : ℕ) (a : α) (h : l.length ≤ i) :
    setIdx l i a = l := by
  induction l generalizing i with
  | nil => cases i <;> rfl
  | cons x xs ih =>
    cases i with
    | zero => simp at h
    | succ n => simpa [setIdx] using ih n (by simpa using h)

theorem getD_map_lt {α β : Type} (f : α → β) (l : List α) (i : ℕ) (d : β) (d' : α)
    (h : i < l.length) : (l.map f).getD i d = f (l.getD i d') := by
  induction l generalizing i with
  | nil => simp at h
  | cons x xs ih =>
    cases i with
    | zero => rfl
    | succ n => simpa using ih n (by simpa using h)

/-! ## C10 — `moveTo` at the target cell / when fatigued -/

/-- C10: with zero fatigue and the target on the creep's own cell, `moveTo`
returns `OK` and changes nothing ("already at target" is success); with
positive fatigue the same call returns `ERR_NOT_IN_RANGE` even at the
target, because the fatigue gate is checked first. -/
theorem moveTo_at_target_c10 (c : Creep) (tx ty : ℤ) (terr : Option Terrain)
    (coll : Option (ℤ → ℤ → Bool)) :
    (c.fatigue = 0 → tx = c.x → ty = c.y → c.moveTo tx ty terr coll = (c, OK)) ∧
    (0 < c.fatigue → c.moveTo tx ty terr coll = (c, ERR_NOT_IN_RANGE)) := by
  constructor
  · intro h0 hx hy
    subst hx; subst hy
    simp [Creep.moveTo, h0]
  · intro hf
    simp [Creep.moveTo, hf]

/-- C10 witness: a fresh creep standing on its target cell moves `OK`
without changing, and the same creep with fatigue 2 is refused. -/
theorem moveTo_at_target_c10_witness :
    (mkCreep 1 1 4 5 [.move] true).moveTo 4 5 none none = (mkCreep 1 1 4 5 [.move] true, OK) ∧
    ({ mkCreep 1 1 4 5 [.move] true with fatigue := 2 } : Creep).moveTo 4 5 none none =
      ({ mkCreep 1 1 4 5 [.move] true with fatigue := 2 }, ERR_NOT_IN_RANGE) :=
  ⟨(moveTo_at_target_c10 (mkCreep 1 1 4 5 [.move] true) 4 5 none none).1 rfl rfl rfl,
   (moveTo_at_target_c10 ({ mkCreep 1 1 4 5 [.move] true with fatigue := 2 }) 4 5 none none).2
     (by with_unfolding_all decide)⟩

/-! ## C4 — `moveTo` candidate order, first-fit semantics, fatigue cost -/

/-- C4: with zero fatigue and a target on a different cell, the candidate
list is exactly (when both axis steps are nonzero) the diagonal step, the
two cardinal steps toward the target, the two off-diagonal steps, then the
two reverse cardinal steps; the first walkable unoccupied candidate is
taken, fatigue grows by exactly the destination's terrain cost, and if
every candidate fails the creep is unchanged and `ERR_NOT_IN_RANGE` is
returned. -/
theorem moveTo_priority_c4 (c : Creep) (tx ty : ℤ) (terr : Option Terrain)
    (coll : Option (ℤ → ℤ → Bool)) (h0 : c.fatigue = 0) (h1 : ¬(tx = c.x ∧ ty = c.y)) :
    ((tx - c.x).sign ≠ 0 → (ty - c.y).sign ≠ 0 →
      moveDirections c.x c.y (tx - c.x).sign (ty - c.y).sign =
        [(c.x + (tx - c.x).sign, c.y + (ty - c.y).sign),
         (c.x + (tx - c.x).sign, c.y),
         (c.x, c.y + (ty - c.y).sign),
         (c.x - (tx - c.x).sign, c.y + (ty - c.y).sign),
         (c.x + (tx - c.x).sign, c.y - (ty - c.y).sign),
         (c.x - (tx - c.x).sign, c.y),
         (c.x, c.y - (ty - c.y).sign)]) ∧
    ((∃ p pre post,
        moveDirections c.x c.y (tx - c.x).sign (ty - c.y).sign = pre ++ p :: post ∧
        (∀ q ∈ pre, isValidPosition terr coll q.1 q.2 = false) ∧
        isValidPosition terr coll p.1 p.2 = true ∧
        c.moveTo tx ty terr coll =
          ({ c with x := p.1, y := p.2, fatigue := c.fatigue + moveCost terr p }, OK)) ∨
      ((∀ q ∈ moveDirections c.x c.y (tx - c.x).sign (ty - c.y).sign,
          isValidPosition terr coll q.1 q.2 = false) ∧
        c.moveTo tx ty terr coll = (c, ERR_NOT_IN_RANGE))) := by
  have hf : ¬0 < c.fatigue := by simp [h0]
  have hne : ¬((tx - c.x).sign = 0 ∧ (ty - c.y).sign = 0) := by
    intro h
    rw [Int.sign_eq_zero_iff_zero, sub_eq_zero] at h
    rw [Int.sign_eq_zero_iff_zero, sub_eq_zero] at h
    exact h1 h
  constructor
  · intro hdx hdy
    simp [moveDirections, hdx, hdy]
  · rcases find?_decomp (fun p => isValidPosition terr coll p.1 p.2)
      (moveDirections c.x c.y (tx - c.x).sign (ty - c.y).sign) with
      ⟨a, pre, post, hsplit, hpre, hpa, hfind⟩ | ⟨hall, hfind⟩
    · refine Or.inl ⟨a, pre, post, hsplit, hpre, hpa, ?_⟩
      simp only [Creep.moveTo, if_neg hf, if_neg hne, hfind]
    · refine Or.inr ⟨hall, ?_⟩
      simp only [Creep.moveTo, if_neg hf, if_neg hne, hfind]

/-- C4 witness: from (5,5) toward (7,8) on open ground the seven candidates
come out in the claimed order and the diagonal is taken with plain-terrain
fatigue cost 2. -/
theorem moveTo_priority_c4_witness :
    moveDirections 5 5 ((7 : ℤ) - 5).sign ((8 : ℤ) - 5).sign =
      [(6, 6), (6, 5), (5, 6), (4, 6), (6, 4), (4, 5), (5, 4)] ∧
    (mkCreep 1 1 5 5 [.move] true).moveTo 7 8 none none =
      ({ mkCreep 1 1 5 5 [.move] true with x := 6, y := 6, fatigue := 2 }, OK) := by
  constructor
  · have h := (moveTo_priority_c4 (mkCreep 1 1 5 5 [.move] true) 7 8 none none rfl
      (by with_unfolding_all decide)).1 (by decide) (by decide)
    simpa [mkCreep] using h
  · with_unfolding_all decide

/-! ## C5 — `applyDamage` front-to-back depletion -/

/-- Hit points of the `i`-th part (0 beyond the body). -/
def partHitsD (ps : List BodyPart) (i : ℕ) : ℚ :=
  (ps.getD i { type := .move, hits := 0 }).hits

theorem damageParts_length (r : ℚ) (ps : List BodyPart) :
    (damageParts r ps).length = ps.length := by
  induction ps generalizing r with
  | nil => rfl
  | cons p t ih =>
    unfold damageParts
    split_ifs <;> simp [ih]

theorem damageParts_nonpos (r : ℚ) (ps : List BodyPart) (h : ¬0 < r) :
    damageParts r ps = ps := by
  cases ps with
  | nil => rfl
  | cons p t => simp [damageParts, h]

theorem damageParts_le (r : ℚ) (ps : List BodyPart) (i : ℕ) :
    partHitsD (damageParts r ps) i ≤ partHitsD ps i := by
  induction ps generalizing r i with
  | nil => simp [partHitsD, damageParts]
  | cons p t ih =>
    unfold damageParts
    split_ifs with h1 h2
    · cases i with
      | zero =>
        simp only [partHitsD, List.getD_cons_zero]
        have : 0 ≤ min p.hits r := le_min (le_of_lt h2) (le_of_lt h1)
        linarith
      | succ n => simpa [partHitsD] using ih (r - min p.hits r) n
    · cases i with
      | zero => simp [partHitsD]
      | succ n => simpa [partHitsD] using ih r n
    · simp [partHitsD]

theorem damageParts_front (r : ℚ) (ps : List BodyPart)
    (hnn : ∀ p ∈ ps, 0 ≤ p.hits) (i : ℕ)
    (hlt : partHitsD (damageParts r ps) i < partHitsD ps i) :
    ∀ j, j < i → partHitsD (damageParts r ps) j = 0 := by
  induction ps generalizing r i with
  | nil => simp [partHitsD, damageParts] at hlt
  | cons p t ih =>
    have hp0 : 0 ≤ p.hits := hnn p (by simp)
    have hnt : ∀ q ∈ t, 0 ≤ q.hits := fun q hq => hnn q (by simp [hq])
    rw [show damageParts r (p :: t) =
        (if 0 < r then
          if 0 < p.hits then
            { p with hits := p.hits - min p.hits r } :: damageParts (r - min p.hits r) t
          else p :: damageParts r t
        else p :: t) from rfl] at hlt ⊢
    split_ifs at hlt ⊢ with h1 h2
    · -- damage flows into the head
      cases i with
      | zero => intro j hj; omega
      | succ n =>
        intro j hj
        have htail : partHitsD (damageParts (r - min p.hits r) t) n < partHitsD t n := by
          simpa [partHitsD] using hlt
        cases j with
        | zero =>
          -- the head must be fully depleted: otherwise `min p.hits r = r`
          -- and no damage remains for the tail
          simp only [partHitsD, List.getD_cons_zero]
          by_cases hle : p.hits ≤ r
          · simp [min_eq_left hle]
          · have : min p.hits r = r := min_eq_right (le_of_not_le hle)
            rw [this] at htail
            rw [damageParts_nonpos (r - r) t (by simp)] at htail
            exact absurd htail (lt_irrefl _)
        | succ m =>
          have := ih (r - min p.hits r) hnt n htail m (by omega)
          simpa [partHitsD] using this
    · -- dead head skipped: its hp is exactly 0
      have hp0' : p.hits = 0 := le_antisymm (le_of_not_lt h2) hp0
      cases i with
      | zero => simp [partHitsD] at hlt
      | succ n =>
        intro j hj
        have htail : partHitsD (damageParts r t) n < partHitsD t n := by
          simpa [partHitsD] using hlt
        cases j with
        | zero => simp [partHitsD, hp0']
        | succ m =>
          have := ih r hnt n htail m (by omega)
          simpa [partHitsD] using this
    · exact absurd hlt (lt_irrefl _)

/-- C5: `applyDamage(D)` for `D ≥ 0` keeps the body length, never increases
any part's hp, depletes strictly front to back (a part that lost hp has all
earlier parts at exactly 0), recomputes `hits` as the sum over parts, and
adds the full `D` to `damageTaken` even beyond the remaining total. -/
theorem applyDamage_front_c5 (c : Creep) (D : ℚ) (hD : 0 ≤ D)
    (hnn : ∀ p ∈ c.body, 0 ≤ p.hits) :
    ((c.applyDamage D).body.length = c.body.length) ∧
    (∀ i, partHitsD (c.applyDamage D).body i ≤ partHitsD c.body i) ∧
    (∀ i, partHitsD (c.applyDamage D).body i < partHitsD c.body i →
      ∀ j, j < i → partHitsD (c.applyDamage D).body j = 0) ∧
    (c.applyDamage D).hits = sumHits (c.applyDamage D).body ∧
    (c.applyDamage D).damageTaken = c.damageTaken + D := by
  refine ⟨damageParts_length D c.body, fun i => damageParts_le D c.body i,
    fun i hi j hj => damageParts_front D c.body hnn i hi j hj, rfl, rfl⟩

/-- C5 witness: 35 damage against a fresh 2-part body (100, 100) yields
(0, 65) — the second part only starts losing hp once the first is at 0 —
with `hits` recomputed and `damageTaken` incremented by the full 35. -/
theorem applyDamage_front_c5_witness :
    ((0 : ℚ) ≤ 135) ∧
    ((mkCreep 1 1 0 0 [.attack, .move] true).applyDamage 135).body.length = 2 ∧
    partHitsD ((mkCreep 1 1 0 0 [.attack, .move] true).applyDamage 135).body 0 = 0 ∧
    partHitsD ((mkCreep 1 1 0 0 [.attack, .move] true).applyDamage 135).body 1 = 65 ∧
    ((mkCreep 1 1 0 0 [.attack, .move] true).applyDamage 135).hits = 65 ∧
    ((mkCreep 1 1 0 0 [.attack, .move] true).applyDamage 135).damageTaken = 135 := by
  refine ⟨by norm_num, ?_, ?_, ?_, ?_, ?_⟩
  · exact (applyDamage_front_c5 (mkCreep 1 1 0 0 [.attack, .move] true) 135 (by norm_num)
      (by with_unfolding_all decide)).1
  · with_unfolding_all decide
  · with_unfolding_all decide
  · with_unfolding_all decide
  · with_unfolding_all decide

/-! ## C6 — ranged-attack falloff -/

theorem getD_of_length_le {α : Type} (l : List α) (d : α) (j : ℕ) (h : l.length ≤ j) :
    l.getD j d = d := by
  induction l generalizing j with
  | nil => cases j <;> rfl
  | cons x xs ih =>
    cases j with
    | zero => simp at h
    | succ n => simpa using ih n (by simpa using h)

theorem creepAt_default (e : Engine) (j : ℕ) (h : e.creeps.length ≤ j) :
    e.creepAt j = defaultCreep :=
  getD_of_length_le e.creeps defaultCreep j h

theorem alive_lt (e : Engine) (j : ℕ) (h : (e.creepAt j).isAlive = true) :
    j < e.creeps.length := by
  by_contra hge
  rw [creepAt_default e j (le_of_not_lt hge)] at h
  revert h
  with_unfolding_all decide

theorem parts_lt (e : Engine) (i : ℕ) (t : PartType)
    (h : 0 < (e.creepAt i).getActiveBodyParts t) : i < e.creeps.length := by
  by_contra hge
  rw [creepAt_default e i (le_of_not_lt hge)] at h
  have h0 : defaultCreep.getActiveBodyParts t = 0 := by cases t <;> rfl
  omega

theorem applyDamage_damageDealt (c : Creep) (d : ℚ) :
    (c.applyDamage d).damageDealt = c.damageDealt := rfl

theorem applyDamage_damageTaken (c : Creep) (d : ℚ) :
    (c.applyDamage d).damageTaken = c.damageTaken + d := rfl

/-- C6: against a living target, an attacker with active ranged parts deals
exactly `parts × RANGED_ATTACK_POWER × m` where `m` is 1 at ranges 0–1,
2/5 at range 2, 1/10 at range 3 (recorded in both `damageTaken` of the
target and `damageDealt` of the attacker), and beyond range 3 the call
returns the `ERR_NOT_IN_RANGE` sentinel leaving the engine unchanged. -/
theorem rangedAttack_falloff_c6 (e : Engine) (i j : ℕ) (r : ℕ)
    (hp : 0 < (e.creepAt i).getActiveBodyParts .ranged_attack)
    (ht : (e.creepAt j).isAlive = true)
    (hr : (e.creepAt i).getRangeTo (e.creepAt j).x (e.creepAt j).y = r) :
    (r ≤ 3 →
      (e.engineRangedAttack i j).2 = OK ∧
      ((e.engineRangedAttack i j).1.creepAt j).damageTaken =
        (e.creepAt j).damageTaken +
          ((e.creepAt i).getActiveBodyParts .ranged_attack : ℚ) * RANGED_ATTACK_POWER *
            RANGED_ATTACK_DISTANCE_RATE r ∧
      ((e.engineRangedAttack i j).1.creepAt i).damageDealt =
        (e.creepAt i).damageDealt +
          ((e.creepAt i).getActiveBodyParts .ranged_attack : ℚ) * RANGED_ATTACK_POWER *
            RANGED_ATTACK_DISTANCE_RATE r) ∧
    (r = 0 ∨ r = 1 → RANGED_ATTACK_DISTANCE_RATE r = 1) ∧
    (r = 2 → RANGED_ATTACK_DISTANCE_RATE r = 2 / 5) ∧
    (r = 3 → RANGED_ATTACK_DISTANCE_RATE r = 1 / 10) ∧
    (3 < r → e.engineRangedAttack i j = (e, ERR_NOT_IN_RANGE)) := by
  have hj : j < e.creeps.length := alive_lt e j ht
  have hi : i < e.creeps.length := parts_lt e i .ranged_attack hp
  have hparts : ¬(e.creepAt i).getActiveBodyParts .ranged_attack = 0 := by omega
  refine ⟨?_, ?_, ?_, ?_, ?_⟩
  · intro hle
    have hnr : ¬RANGED_ATTACK_RANGE < r := by unfold RANGED_ATTACK_RANGE; omega
    have hta : ¬(!(e.creepAt j).isAlive) = true := by simp [ht]
    simp only [Engine.engineRangedAttack]
    rw [hr, if_neg hta, if_neg hnr, if_neg hparts]
    refine ⟨rfl, ?_, ?_⟩
    · by_cases hij : i = j
      · subst hij
        rw [Engine.creepAt, Engine.setCreep, getD_setIdx_self _ _ _ _ (by
            rw [Engine.setCreep, setIdx_length]; exact hi)]
        simp only [Engine.setCreep, Engine.creepAt, getD_setIdx_self _ _ _ _ hi]
        rw [applyDamage_damageTaken]
      · rw [Engine.creepAt, Engine.setCreep, getD_setIdx_ne _ _ _ _ _ (fun hc => hij hc.symm)]
        rw [Engine.setCreep, Engine.creepAt, getD_setIdx_self _ _ _ _ hj]
        rw [applyDamage_damageTaken]
    · rw [Engine.creepAt, Engine.setCreep, getD_setIdx_self _ _ _ _ (by
          rw [Engine.setCreep, setIdx_length]; exact hi)]
      by_cases hij : i = j
      · subst hij
        simp only [Engine.setCreep, Engine.creepAt, getD_setIdx_self _ _ _ _ hi]
        rw [applyDamage_damageDealt]
      · simp only [Engine.setCreep, Engine.creepAt,
          getD_setIdx_ne _ _ _ _ _ (fun hc => hij hc)]
  · rintro (rfl | rfl) <;> rfl
  · rintro rfl; rfl
  · rintro rfl; rfl
  · intro hgt
    have hnr : RANGED_ATTACK_RANGE < r := by unfold RANGED_ATTACK_RANGE; omega
    have hta : ¬(!(e.creepAt j).isAlive) = true := by simp [ht]
    simp only [Engine.engineRangedAttack]
    rw [hr, if_neg hta, if_pos hnr]

def tPlain20 : Terrain :=
  { width := 20, height := 20, defaultCost := FATIGUE_COST_PLAIN, terrainMap := [] }

def eC6 : Engine :=
  { maxTicks := 10
    creeps := [mkCreep 1 1 0 0 [.ranged_attack, .ranged_attack, .move] true,
               mkCreep 2 2 2 0 [.move] false]
    tick := 0, occupiedTiles := [], terrain := tPlain20, baseTerrain := tPlain20
    recordBattle := false, recording := [], recordingTerrain := none, entropy := none
    rng := fun _ => 0, rngIdx := 0 }

/-- C6 witness: two active ranged parts at range 2 deal exactly
`2 × 10 × 2/5 = 8`. -/
theorem rangedAttack_falloff_c6_witness :
    (eC6.engineRangedAttack 0 1).2 = OK ∧
    ((eC6.engineRangedAttack 0 1).1.creepAt 1).damageTaken = 8 ∧
    ((eC6.engineRangedAttack 0 1).1.creepAt 0).damageDealt = 8 := by
  have h := (rangedAttack_falloff_c6 eC6 0 1 2 (by with_unfolding_all decide)
    (by with_unfolding_all decide) (by with_unfolding_all decide)).1 (by omega)
  refine ⟨h.1, ?_, ?_⟩
  · rw [h.2.1]; with_unfolding_all decide
  · rw [h.2.2]; with_unfolding_all decide

/-! ## C1 — the winner actually reported by `getBattleResults` -/

/-- C1 corrected: at the end of `runBattle` the winner is `player`
whenever at least one friendly is alive — regardless of surviving enemies —
`enemy` when no friendly but some enemy is alive, and `draw` exactly when
both sides are empty. -/
theorem runBattle_winner_c1 (e : Engine) :
    ((e.runBattle).2.winner = Winner.player ↔
      0 < ((e.runBattle).1.aliveTeamIdxs true).length) ∧
    ((e.runBattle).2.winner = Winner.enemy ↔
      (((e.runBattle).1.aliveTeamIdxs true).length = 0 ∧
        0 < ((e.runBattle).1.aliveTeamIdxs false).length)) ∧
    ((e.runBattle).2.winner = Winner.draw ↔
      (((e.runBattle).1.aliveTeamIdxs true).length = 0 ∧
        ((e.runBattle).1.aliveTeamIdxs false).length = 0)) := by
  have hsnd : (e.runBattle).2 = (e.runBattle).1.getBattleResults := rfl
  rw [hsnd]
  unfold Engine.getBattleResults
  simp only []
  split_ifs with h1 h2
  · exact ⟨iff_of_true rfl h1,
      iff_of_false (by simp) (fun h => by omega),
      iff_of_false (by simp) (fun h => by omega)⟩
  · exact ⟨iff_of_false (by simp) (fun h => h1 h),
      iff_of_true rfl ⟨by omega, h2⟩,
      iff_of_false (by simp) (fun h => by omega)⟩
  · exact ⟨iff_of_false (by simp) (fun h => h1 h),
      iff_of_false (by simp) (fun h => h2 h.2),
      iff_of_true rfl ⟨by omega, by omega⟩⟩

def eC1 : Engine :=
  { maxTicks := 1
    creeps := [mkCreep 1 1 0 0 [.move] true, mkCreep 2 2 9 9 [.move] false]
    tick := 0, occupiedTiles := [], terrain := tPlain20, baseTerrain := tPlain20
    recordBattle := false, recording := [], recordingTerrain := none, entropy := none
    rng := fun _ => 0, rngIdx := 0 }

/-- C1 counterexample: `maxTicks` is exhausted with one survivor on each
side, yet the reported winner is `player`, not `draw`. -/
theorem runBattle_winner_c1_counterexample :
    (eC1.runBattle).2.ticks = eC1.maxTicks ∧
    0 < ((eC1.runBattle).1.aliveTeamIdxs true).length ∧
    0 < ((eC1.runBattle).1.aliveTeamIdxs false).length ∧
    (eC1.runBattle).2.winner = Winner.player ∧
    Winner.player ≠ Winner.draw := by
  with_unfolding_all decide

/-! ## C3 — hybrid loadouts never reach the ranged/move hybrid branch -/

def eC3 : Engine :=
  { maxTicks := 10
    creeps := [mkCreep 1 1 0 0 [.attack, .ranged_attack, .move] true,
               mkCreep 2 2 2 0 [.move] false]
    tick := 0
    occupiedTiles := buildOcc [mkCreep 1 1 0 0 [.attack, .ranged_attack, .move] true,
               mkCreep 2 2 2 0 [.move] false] 0
    terrain := tPlain20, baseTerrain := tPlain20
    recordBattle := false, recording := [], recordingTerrain := none, entropy := none
    rng := fun _ => 0, rngIdx := 0 }

/-- C3 counterexample: a hybrid (active melee + ranged) actor at range 2
from its target performs no `rangedAttack` at all — the turn is handled by
the melee branch (move, then melee attack once adjacent). -/
theorem hybrid_c3_counterexample :
    0 < (eC3.creepAt 0).getActiveBodyParts .ranged_attack ∧
    0 < (eC3.creepAt 0).getActiveBodyParts .attack ∧
    (eC3.creepAt 0).getRangeTo (eC3.creepAt 1).x (eC3.creepAt 1).y = 2 ∧
    (eC3.runSimpleAI 0).2.map (fun a => a.type) = [BattleActionType.attack] ∧
    (∀ a ∈ (eC3.runSimpleAI 0).2, a.type ≠ BattleActionType.rangedAttack) := by
  with_unfolding_all decide

/-- C3 amended: whenever an actor has both active ranged and active melee
parts, the loadout dispatch selects the plain melee branch (the
`hasRanged ∧ hasMelee` arm is dead code), so every action it records is a
melee attack. -/
theorem hybrid_melee_c3 (e : Engine) (i j : ℕ)
    (hR : 0 < (e.creepAt i).getActiveBodyParts .ranged_attack)
    (hM : 0 < (e.creepAt i).getActiveBodyParts .attack) :
    e.dispatchBranch i j = e.meleeBranch i j ∧
    ∀ a ∈ (e.dispatchBranch i j).2, a.type = BattleActionType.attack := by
  have h1 : ¬(0 < (e.creepAt i).getActiveBodyParts .ranged_attack ∧
      ¬0 < (e.creepAt i).getActiveBodyParts .attack) := fun h => h.2 hM
  have heq : e.dispatchBranch i j = e.meleeBranch i j := by
    simp only [Engine.dispatchBranch, if_neg h1, if_pos hM]
  refine ⟨heq, ?_⟩
  rw [heq]
  simp only [Engine.meleeBranch]
  split_ifs <;> simp

/-- C3 witness: the amended behaviour at a concrete hybrid at range 3. -/
theorem hybrid_melee_c3_witness :
    eC3.dispatchBranch 0 1 = eC3.meleeBranch 0 1 ∧
    ∀ a ∈ (eC3.dispatchBranch 0 1).2, a.type = BattleActionType.attack :=
  hybrid_melee_c3 eC3 0 1 (by with_unfolding_all decide) (by with_unfolding_all decide)

/-! ## C7 — the `allowZeroOffset = false` fallback ladder -/

def cG7 : Creep := mkCreep 1 1 0 0 [.move] true

def tPlain10 : Terrain :=
  { width := 10, height := 10, defaultCost := FATIGUE_COST_PLAIN, terrainMap := [] }

def eC7 : Engine :=
  { maxTicks := 10, creeps := [], tick := 0, occupiedTiles := []
    terrain := tPlain10, baseTerrain := tPlain10
    recordBattle := false, recording := [], recordingTerrain := none, entropy := none
    rng := fun _ => 0, rngIdx := 0 }

def cfgC7 : SpawnJitterCfg :=
  { radius := 2, attempts := 3, perUnitRadius := 1, perUnitAttempts := 4
    allowZeroOffset := false, preserveFormation := true }

/-- C7 counterexample: every random draw yields the invalid `(-2,-2)`, so
the fallback runs; `(1,0)` validates, yet the offset returned is `(2,0)` —
the scan starts at the LARGEST distance, not the nearest. -/
theorem findGroupOffset_c7_counterexample :
    cfgC7.allowZeroOffset = false ∧
    eC7.isGroupOffsetValid [cG7] [] (-2, -2) = false ∧
    eC7.isGroupOffsetValid [cG7] [] (1, 0) = true ∧
    (eC7.findGroupOffset [cG7] [] cfgC7).1 = (2, 0) := by
  with_unfolding_all decide

/-- The full descending candidate list the fallback ladder walks:
distance `radius` first, down to 1, each with `(d,0), (-d,0), (0,d),
(0,-d)`. -/
def fallbackScanList : ℕ → List (ℤ × ℤ)
  | 0 => []
  | d + 1 => fallbackOffsets (d + 1) ++ fallbackScanList d

theorem find?_append_or {α : Type} (p : α → Bool) (l₁ l₂ : List α) :
    (l₁ ++ l₂).find? p = match l₁.find? p with
      | some a => some a
      | none => l₂.find? p := by
  induction l₁ with
  | nil => simp
  | cons x xs ih =>
    cases hx : p x <;> simp [List.find?_cons, hx, ih]

theorem groupOffsetFallbackScan_eq_find (e : Engine) (creeps : List Creep)
    (occ : List (ℤ × ℤ)) (r : ℕ) :
    e.groupOffsetFallbackScan creeps occ r =
      ((fallbackScanList r).find? (fun o => e.isGroupOffsetValid creeps occ o)).getD (0, 0) := by
  induction r with
  | zero => rfl
  | succ d ih =>
    unfold Engine.groupOffsetFallbackScan fallbackScanList
    rw [find?_append_or]
    cases hf : (fallbackOffsets (d + 1)).find? (fun o => e.isGroupOffsetValid creeps occ o) with
    | some o => simp
    | none => simpa using ih

/-- C7 amended: when every random offset draw fails and `allowZeroOffset`
is false, `findGroupOffset` returns the FIRST validating offset of the
descending scan `d = radius, radius-1, …, 1` with per-distance order
`(d,0), (-d,0), (0,d), (0,-d)` — i.e. a validating single-axis offset with
the largest distance, not the nearest — and the zero offset exactly when
none of those validates. -/
theorem findGroupOffset_fallback_c7 (e : Engine) (creeps : List Creep)
    (occ : List (ℤ × ℤ)) (cfg : SpawnJitterCfg)
    (hz : cfg.allowZeroOffset = false) (hr : ¬max 0 cfg.radius = 0)
    (hnone : (e.tryRandomOffsets creeps occ (max 0 cfg.radius) (max 1 cfg.attempts)).1 = none) :
    e.findGroupOffset creeps occ cfg =
      (((fallbackScanList (max 0 cfg.radius)).find?
          (fun o => (e.tryRandomOffsets creeps occ (max 0 cfg.radius)
              (max 1 cfg.attempts)).2.isGroupOffsetValid creeps occ o)).getD (0, 0),
        (e.tryRandomOffsets creeps occ (max 0 cfg.radius) (max 1 cfg.attempts)).2) := by
  have hx : e.tryRandomOffsets creeps occ (max 0 cfg.radius) (max 1 cfg.attempts) =
      (none, (e.tryRandomOffsets creeps occ (max 0 cfg.radius) (max 1 cfg.attempts)).2) :=
    Prod.ext hnone rfl
  simp only [Engine.findGroupOffset, if_neg hr]
  rw [hx]
  simp only [if_pos hz]
  rw [groupOffsetFallbackScan_eq_find]

/-- C7 witness: the amended fallback characterization instantiated on the
concrete blocked-random scenario. -/
theorem findGroupOffset_fallback_c7_witness :
    cfgC7.allowZeroOffset = false ∧
    (eC7.findGroupOffset [cG7] [] cfgC7).1 =
      ((fallbackScanList (max 0 cfgC7.radius)).find?
        (fun o => (eC7.tryRandomOffsets [cG7] [] (max 0 cfgC7.radius)
            (max 1 cfgC7.attempts)).2.isGroupOffsetValid [cG7] [] o)).getD (0, 0) := by
  have h := findGroupOffset_fallback_c7 eC7 [cG7] [] cfgC7 rfl (by decide)
    (by with_unfolding_all decide)
  exact ⟨rfl, by rw [h]⟩

/-! ## C2/C9 machinery — write shapes of the engine operations -/

/-- All engine fields a creep's turn never touches (everything except the
roster and the occupancy map). -/
def Shell (e e' : Engine) : Prop :=
  e'.maxTicks = e.maxTicks ∧ e'.tick = e.tick ∧ e'.terrain = e.terrain ∧
  e'.recordBattle = e.recordBattle ∧ e'.recording = e.recording ∧
  e'.recordingTerrain = e.recordingTerrain ∧ e'.entropy = e.entropy ∧
  e'.rng = e.rng ∧ e'.rngIdx = e.rngIdx

theorem shell_refl (e : Engine) : Shell e e :=
  ⟨rfl, rfl, rfl, rfl, rfl, rfl, rfl, rfl, rfl⟩

theorem shell_trans {e₁ e₂ e₃ : Engine} (h : Shell e₁ e₂) (h' : Shell e₂ e₃) : Shell e₁ e₃ := by
  obtain ⟨a, b, c, d, f, g, i, j, k⟩ := h
  obtain ⟨a', b', c', d', f', g', i', j', k'⟩ := h'
  exact ⟨a'.trans a, b'.trans b, c'.trans c, d'.trans d, f'.trans f, g'.trans g,
    i'.trans i, j'.trans j, k'.trans k⟩

/-- No two living creeps on one cell (the no-stacking invariant). -/
def NoStacking (cs : List Creep) : Prop :=
  ∀ i, i < cs.length → ∀ j, j < cs.length → i ≠ j →
    (cs.getD i defaultCreep).isAlive = true → (cs.getD j defaultCreep).isAlive = true →
    ((cs.getD i defaultCreep).x, (cs.getD i defaultCreep).y) ≠
      ((cs.getD j defaultCreep).x, (cs.getD j defaultCreep).y)

/-- The occupancy map covers the living roster: every living creep's cell
resolves to a living creep standing on that same cell. -/
def MapCovers (e : Engine) : Prop :=
  ∀ j, j < e.creeps.length → (e.creepAt j).isAlive = true →
    ∃ k, k < e.creeps.length ∧
      posLookup e.occupiedTiles ((e.creepAt j).x, (e.creepAt j).y) = some k ∧
      (e.creepAt k).isAlive = true ∧
      (e.creepAt k).x = (e.creepAt j).x ∧ (e.creepAt k).y = (e.creepAt j).y

/-- Write shape of `attack`/`rangedAttack`/`heal`/`rangedHeal`: shell and
occupancy untouched, roster length kept, no position changes, and nobody
comes back to life. -/
def CombatWrite (e e' : Engine) : Prop :=
  Shell e e' ∧ e'.occupiedTiles = e.occupiedTiles ∧
  e'.creeps.length = e.creeps.length ∧
  (∀ k, (e'.creepAt k).x = (e.creepAt k).x ∧ (e'.creepAt k).y = (e.creepAt k).y) ∧
  (∀ k, (e'.creepAt k).isAlive = true → (e.creepAt k).isAlive = true)

theorem combatWrite_refl (e : Engine) : CombatWrite e e :=
  ⟨shell_refl e, rfl, rfl, fun _ => ⟨rfl, rfl⟩, fun _ h => h⟩

theorem combatWrite_trans {e₁ e₂ e₃ : Engine} (h : CombatWrite e₁ e₂)
    (h' : CombatWrite e₂ e₃) : CombatWrite e₁ e₃ := by
  obtain ⟨hs, ho, hl, hp, ha⟩ := h
  obtain ⟨hs', ho', hl', hp', ha'⟩ := h'
  exact ⟨shell_trans hs hs', ho'.trans ho, hl'.trans hl,
    fun k => ⟨(hp' k).1.trans (hp k).1, (hp' k).2.trans (hp k).2⟩,
    fun k hk => ha k (ha' k hk)⟩

theorem setCreep_combatWrite (e : Engine) (i : ℕ) (c : Creep)
    (hx : c.x = (e.creepAt i).x) (hy : c.y = (e.creepAt i).y)
    (ha : c.isAlive = true → (e.creepAt i).isAlive = true) :
    CombatWrite e (e.setCreep i c) := by
  refine ⟨⟨rfl, rfl, rfl, rfl, rfl, rfl, rfl, rfl, rfl⟩, rfl, setIdx_length _ _ _, ?_, ?_⟩
  · intro k
    by_cases hk : k = i
    · subst hk
      by_cases hlen : k < e.creeps.length
      · rw [show (e.setCreep k c).creepAt k = c from getD_setIdx_self _ _ _ _ hlen]
        exact ⟨hx, hy⟩
      · have hcc : (e.setCreep k c).creepAt k = e.creepAt k := by
          unfold Engine.setCreep Engine.creepAt
          rw [getD_setIdx_ge _ _ _ (le_of_not_lt hlen)]
        rw [hcc]
        exact ⟨rfl, rfl⟩
    · rw [show (e.setCreep i c).creepAt k = e.creepAt k from getD_setIdx_ne _ _ _ _ _ hk]
      exact ⟨rfl, rfl⟩
  · intro k hk
    by_cases hki : k = i
    · subst hki
      by_cases hlen : k < e.creeps.length
      · rw [show (e.setCreep k c).creepAt k = c from getD_setIdx_self _ _ _ _ hlen] at hk
        exact ha hk
      · have hcc : (e.setCreep k c).creepAt k = e.creepAt k := by
          unfold Engine.setCreep Engine.creepAt
          rw [getD_setIdx_ge _ _ _ (le_of_not_lt hlen)]
        rwa [hcc] at hk
    · rwa [show (e.setCreep i c).creepAt k = e.creepAt k from
        getD_setIdx_ne _ _ _ _ _ hki] at hk

theorem applyDamage_x (c : Creep) (d : ℚ) : (c.applyDamage d).x = c.x := rfl

theorem applyHealing_x (c : Creep) (d : ℚ) : (c.applyHealing d).x = c.x := rfl

theorem doubleWrite_combatWrite (e : Engine) (i j : ℕ) (f g : Creep → Creep)
    (hfx : ∀ c, (f c).x = c.x) (hfy : ∀ c, (f c).y = c.y)
    (hfa : (f (e.creepAt j)).isAlive = true → (e.creepAt j).isAlive = true)
    (hgx : ∀ c, (g c).x = c.x) (hgy : ∀ c, (g c).y = c.y)
    (hga : ∀ c, (g c).isAlive = c.isAlive) :
    CombatWrite e ((e.setCreep j (f (e.creepAt j))).setCreep i
      (g ((e.setCreep j (f (e.creepAt j))).creepAt i))) := by
  refine combatWrite_trans (setCreep_combatWrite e j (f (e.creepAt j)) (hfx _) (hfy _) hfa) ?_
  exact setCreep_combatWrite _ i _ (hgx _) (hgy _) (fun h => by rw [hga] at h; exact h)

theorem engineAttack_combatWrite (e : Engine) (i j : ℕ) :
    CombatWrite e (e.engineAttack i j).1 := by
  simp only [Engine.engineAttack]
  split_ifs with h1 h2 h3
  · exact combatWrite_refl e
  · exact combatWrite_refl e
  · exact combatWrite_refl e
  · exact doubleWrite_combatWrite e i j (fun c => c.applyDamage _)
      (fun c => { c with damageDealt := c.damageDealt + _ })
      (fun _ => rfl) (fun _ => rfl) (fun _ => by simpa using h1)
      (fun _ => rfl) (fun _ => rfl) (fun _ => rfl)

theorem engineRangedAttack_combatWrite (e : Engine) (i j : ℕ) :
    CombatWrite e (e.engineRangedAttack i j).1 := by
  simp only [Engine.engineRangedAttack]
  split_ifs with h1 h2 h3
  · exact combatWrite_refl e
  · exact combatWrite_refl e
  · exact combatWrite_refl e
  · exact doubleWrite_combatWrite e i j (fun c => c.applyDamage _)
      (fun c => { c with damageDealt := c.damageDealt + _ })
      (fun _ => rfl) (fun _ => rfl) (fun _ => by simpa using h1)
      (fun _ => rfl) (fun _ => rfl) (fun _ => rfl)

theorem engineHeal_combatWrite (e : Engine) (i j : ℕ) :
    CombatWrite e (e.engineHeal i j).1 := by
  simp only [Engine.engineHeal]
  split_ifs with h1 h2 h3
  · exact combatWrite_refl e
  · exact combatWrite_refl e
  · exact combatWrite_refl e
  · exact doubleWrite_combatWrite e i j (fun c => c.applyHealing _)
      (fun c => { c with healingDone := c.healingDone + _ })
      (fun _ => rfl) (fun _ => rfl) (fun _ => by simpa using h1)
      (fun _ => rfl) (fun _ => rfl) (fun _ => rfl)

theorem engineRangedHeal_combatWrite (e : Engine) (i j : ℕ) :
    CombatWrite e (e.engineRangedHeal i j).1 := by
  simp only [Engine.engineRangedHeal]
  split_ifs with h1 h2 h3
  · exact combatWrite_refl e
  · exact combatWrite_refl e
  · exact combatWrite_refl e
  · exact doubleWrite_combatWrite e i j (fun c => c.applyHealing _)
      (fun c => { c with healingDone := c.healingDone + _ })
      (fun _ => rfl) (fun _ => rfl) (fun _ => by simpa using h1)
      (fun _ => rfl) (fun _ => rfl) (fun _ => rfl)

/-- `moveTo` either leaves the creep in place or moves it to a cell the
validity predicate accepted; in every case only `x`, `y`, `fatigue`
change. -/
theorem moveTo_cases (c : Creep) (tx ty : ℤ) (terr : Option Terrain)
    (coll : Option (ℤ → ℤ → Bool)) :
    (c.moveTo tx ty terr coll).1 = c ∨
    ∃ p, isValidPosition terr coll p.1 p.2 = true ∧
      (c.moveTo tx ty terr coll).1 =
        { c with x := p.1, y := p.2, fatigue := c.fatigue + moveCost terr p } := by
  simp only [Creep.moveTo]
  split_ifs with h1 h2
  · exact Or.inl rfl
  · exact Or.inl rfl
  · cases hf : (moveDirections c.x c.y (tx - c.x).sign (ty - c.y).sign).find?
      (fun p => isValidPosition terr coll p.1 p.2) with
    | none => exact Or.inl rfl
    | some p => exact Or.inr ⟨p, by simpa using List.find?_some hf, rfl⟩

theorem moveTo_hits (c : Creep) (tx ty : ℤ) (terr : Option Terrain)
    (coll : Option (ℤ → ℤ → Bool)) :
    ((c.moveTo tx ty terr coll).1).hits = c.hits ∧
    ((c.moveTo tx ty terr coll).1).isAlive = c.isAlive := by
  rcases moveTo_cases c tx ty terr coll with h | ⟨p, _, h⟩ <;> rw [h] <;> exact ⟨rfl, rfl⟩

/-- Write shape of a `moveTo` issued through the engine for creep `i`:
only creep `i` changes, aliveness is untouched everywhere, and the
destination (if the creep moved at all) passed the engine's own
`isOccupied` check excluding `i`. -/
def MoveWrite (i : ℕ) (e e' : Engine) : Prop :=
  Shell e e' ∧ e'.occupiedTiles = e.occupiedTiles ∧
  e'.creeps.length = e.creeps.length ∧
  (∀ k, k ≠ i → e'.creepAt k = e.creepAt k) ∧
  (∀ k, (e'.creepAt k).isAlive = (e.creepAt k).isAlive) ∧
  (((e'.creepAt i).x = (e.creepAt i).x ∧ (e'.creepAt i).y = (e.creepAt i).y) ∨
    e.isOccupied (e'.creepAt i).x (e'.creepAt i).y (some i) = false)

theorem creepAt_setCreep_ne (e : Engine) (i k : ℕ) (c : Creep) (h : k ≠ i) :
    (e.setCreep i c).creepAt k = e.creepAt k :=
  getD_setIdx_ne _ _ _ _ _ h

theorem creepAt_setCreep_self (e : Engine) (i : ℕ) (c : Creep) (h : i < e.creeps.length) :
    (e.setCreep i c).creepAt i = c :=
  getD_setIdx_self _ _ _ _ h

theorem engineMove_moveWrite (e : Engine) (i : ℕ) (tx ty : ℤ) :
    MoveWrite i e (e.engineMove i tx ty).1 := by
  have hpair : (e.engineMove i tx ty).1 =
      e.setCreep i ((e.creepAt i).moveTo tx ty (some e.terrain)
        (some (fun x y => e.isOccupied x y (some i)))).1 := rfl
  rw [hpair]
  by_cases hlen : i < e.creeps.length
  · have hat : (e.setCreep i ((e.creepAt i).moveTo tx ty (some e.terrain)
        (some (fun x y => e.isOccupied x y (some i)))).1).creepAt i =
        ((e.creepAt i).moveTo tx ty (some e.terrain)
          (some (fun x y => e.isOccupied x y (some i)))).1 :=
      creepAt_setCreep_self _ _ _ hlen
    refine ⟨⟨rfl, rfl, rfl, rfl, rfl, rfl, rfl, rfl, rfl⟩, rfl, setIdx_length _ _ _,
      ?_, ?_, ?_⟩
    · intro k hk
      exact creepAt_setCreep_ne _ _ _ _ hk
    · intro k
      by_cases hk : k = i
      · subst hk
        rw [hat]
        exact (moveTo_hits _ _ _ _ _).2
      · rw [creepAt_setCreep_ne _ _ _ _ hk]
    · rcases moveTo_cases (e.creepAt i) tx ty (some e.terrain)
        (some (fun x y => e.isOccupied x y (some i))) with h | ⟨p, hv, h⟩
      · left
        rw [hat, h]
        exact ⟨rfl, rfl⟩
      · right
        rw [hat, h]
        unfold isValidPosition at hv
        simp only [Bool.and_eq_true] at hv
        simpa using hv.2
  · have hsame : e.setCreep i ((e.creepAt i).moveTo tx ty (some e.terrain)
        (some (fun x y => e.isOccupied x y (some i)))).1 = e := by
      unfold Engine.setCreep
      rw [getD_setIdx_ge _ _ _ (le_of_not_lt hlen)]
    rw [hsame]
    exact ⟨shell_refl e, rfl, rfl, fun _ _ => rfl, fun _ => rfl, Or.inl ⟨rfl, rfl⟩⟩

/-! ## Invariant preservation through the write shapes -/

theorem NS_of_combatWrite {e e' : Engine} (h : CombatWrite e e')
    (hNS : NoStacking e.creeps) : NoStacking e'.creeps := by
  obtain ⟨_, _, hlen, hpos, halive⟩ := h
  have hpos' : ∀ k, (e'.creeps.getD k defaultCreep).x = (e.creeps.getD k defaultCreep).x ∧
      (e'.creeps.getD k defaultCreep).y = (e.creeps.getD k defaultCreep).y := fun k => hpos k
  have halive' : ∀ k, (e'.creeps.getD k defaultCreep).isAlive = true →
      (e.creeps.getD k defaultCreep).isAlive = true := fun k => halive k
  intro i hi j hj hij hai haj
  rw [show ((e'.creeps.getD i defaultCreep).x, (e'.creeps.getD i defaultCreep).y) =
      ((e.creeps.getD i defaultCreep).x, (e.creeps.getD i defaultCreep).y) from by
    rw [(hpos' i).1, (hpos' i).2]]
  rw [show ((e'.creeps.getD j defaultCreep).x, (e'.creeps.getD j defaultCreep).y) =
      ((e.creeps.getD j defaultCreep).x, (e.creeps.getD j defaultCreep).y) from by
    rw [(hpos' j).1, (hpos' j).2]]
  exact hNS i (by omega) j (by omega) hij (halive' i hai) (halive' j haj)

theorem MC_of_combatWrite {e e' : Engine} (h : CombatWrite e e')
    (hNS : NoStacking e.creeps) (hMC : MapCovers e) : MapCovers e' := by
  obtain ⟨_, htiles, hlen, hpos, halive⟩ := h
  intro j hj haj
  have hj' : j < e.creeps.length := by omega
  obtain ⟨k, hk, hlook, hka, hkx, hky⟩ := hMC j hj' (halive j haj)
  have hkx' : (e.creeps.getD k defaultCreep).x = (e.creeps.getD j defaultCreep).x := hkx
  have hky' : (e.creeps.getD k defaultCreep).y = (e.creeps.getD j defaultCreep).y := hky
  have hkj : k = j := by
    by_contra hne
    exact hNS k hk j hj' hne hka (halive j haj) (by rw [hkx', hky'])
  subst hkj
  refine ⟨k, by omega, ?_, haj, rfl, rfl⟩
  rw [htiles, (hpos k).1, (hpos k).2]
  exact hlook

theorem defaultCreep_dead : defaultCreep.isAlive = false := by
  with_unfolding_all decide

theorem NS_of_moveWrite {i : ℕ} {e e' : Engine} (h : MoveWrite i e e')
    (hNS : NoStacking e.creeps) (hMC : MapCovers e) : NoStacking e'.creeps := by
  obtain ⟨_, _, hlen, hother, halive, hdest⟩ := h
  have hoth : ∀ k, k ≠ i → e'.creeps.getD k defaultCreep = e.creeps.getD k defaultCreep :=
    fun k hk => hother k hk
  have hal : ∀ k,
      (e'.creeps.getD k defaultCreep).isAlive = (e.creeps.getD k defaultCreep).isAlive :=
    fun k => halive k
  -- creep i's cell after the step holds no other living creep
  have key : ∀ b, b < e.creeps.length → b ≠ i →
      (e.creeps.getD b defaultCreep).isAlive = true →
      (e'.creeps.getD i defaultCreep).isAlive = true →
      ((e'.creeps.getD i defaultCreep).x, (e'.creeps.getD i defaultCreep).y) ≠
        ((e.creeps.getD b defaultCreep).x, (e.creeps.getD b defaultCreep).y) := by
    intro b hbl hbi hbal hia'
    have hia : (e.creeps.getD i defaultCreep).isAlive = true := by rw [← hal i]; exact hia'
    have hil : i < e.creeps.length := alive_lt e i hia
    rcases hdest with ⟨hx, hy⟩ | hocc
    · have hpi : ((e'.creeps.getD i defaultCreep).x, (e'.creeps.getD i defaultCreep).y) =
          ((e.creeps.getD i defaultCreep).x, (e.creeps.getD i defaultCreep).y) := by
        rw [show (e'.creeps.getD i defaultCreep).x = (e.creeps.getD i defaultCreep).x from hx,
          show (e'.creeps.getD i defaultCreep).y = (e.creeps.getD i defaultCreep).y from hy]
      rw [hpi]
      exact hNS i hil b hbl (fun hc => hbi hc.symm) hia hbal
    · intro hcon
      obtain ⟨k, hk, hlook, hka, hkx, hky⟩ := hMC b hbl hbal
      have hcx : (e'.creeps.getD i defaultCreep).x = (e.creeps.getD b defaultCreep).x :=
        congrArg Prod.fst hcon
      have hcy : (e'.creeps.getD i defaultCreep).y = (e.creeps.getD b defaultCreep).y :=
        congrArg Prod.snd hcon
      unfold Engine.isOccupied at hocc
      simp only [Engine.creepAt] at hocc
      rw [hcx, hcy] at hocc
      have hlook' : posLookup e.occupiedTiles
          ((e.creeps.getD b defaultCreep).x, (e.creeps.getD b defaultCreep).y) = some k := hlook
      rw [hlook'] at hocc
      have hka' : (e.creeps.getD k defaultCreep).isAlive = true := hka
      simp only [hka', Bool.and_true, decide_eq_false_iff_not, not_not,
        Option.some.injEq] at hocc
      have hkx' : (e.creeps.getD k defaultCreep).x = (e.creeps.getD b defaultCreep).x := hkx
      have hky' : (e.creeps.getD k defaultCreep).y = (e.creeps.getD b defaultCreep).y := hky
      exact hNS k hk b hbl (fun hkb => hbi (hkb ▸ hocc)) hka' hbal (by rw [hkx', hky'])
  intro a ha b hb hab haa hba
  by_cases hai : a = i
  · subst hai
    have hbi : b ≠ a := fun hc => hab hc.symm
    rw [hoth b hbi]
    rw [hoth b hbi] at hba
    exact key b (by omega) hbi hba haa
  · by_cases hbi : b = i
    · subst hbi
      rw [hoth a hai]
      rw [hoth a hai] at haa
      exact (key a (by omega) hai haa hba).symm
    · rw [hoth a hai, hoth b hbi]
      rw [hoth a hai] at haa
      rw [hoth b hbi] at hba
      exact hNS a (by omega) b (by omega) hab haa hba

/-! ## `updateOccupancy` restores the covering property -/

theorem posLookup_append {β : Type} (l₁ l₂ : List ((ℤ × ℤ) × β)) (key : ℤ × ℤ) :
    posLookup (l₁ ++ l₂) key =
      match posLookup l₁ key with
      | some v => some v
      | none => posLookup l₂ key := by
  induction l₁ with
  | nil => rfl
  | cons kv rest ih =>
    obtain ⟨k, v⟩ := kv
    by_cases hk : k = key <;> simp [posLookup, hk, ih]

theorem buildOcc_lookup_mem (cs : List Creep) (i₀ : ℕ) (key : ℤ × ℤ) (k : ℕ)
    (h : posLookup (buildOcc cs i₀) key = some k) :
    ∃ m, m < cs.length ∧ k = i₀ + m ∧ (cs.getD m defaultCreep).isAlive = true ∧
      ((cs.getD m defaultCreep).x, (cs.getD m defaultCreep).y) = key := by
  induction cs generalizing i₀ with
  | nil => simp [buildOcc, posLookup] at h
  | cons c rest ih =>
    unfold buildOcc at h
    rw [posLookup_append] at h
    cases hrest : posLookup (buildOcc rest (i₀ + 1)) key with
    | some v =>
      rw [hrest] at h
      obtain rfl : v = k := by simpa using h
      obtain ⟨m, hm, hkm, hal, hpos⟩ := ih (i₀ + 1) hrest
      exact ⟨m + 1, by simpa using hm, by omega, by simpa using hal, by simpa using hpos⟩
    | none =>
      rw [hrest] at h
      by_cases hc : c.isAlive = true
      · rw [if_pos hc] at h
        by_cases hkey : (c.x, c.y) = key
        · simp only [posLookup, if_pos hkey] at h
          obtain rfl : i₀ = k := by simpa using h
          exact ⟨0, by simp, by omega, by simpa using hc, by simpa using hkey⟩
        · simp only [posLookup, if_neg hkey] at h
          exact absurd h (by simp)
      · rw [if_neg hc] at h
        simp [posLookup] at h

theorem buildOcc_lookup_present (cs : List Creep) (i₀ m : ℕ) (hm : m < cs.length)
    (hal : (cs.getD m defaultCreep).isAlive = true) :
    ∃ k, posLookup (buildOcc cs i₀)
      ((cs.getD m defaultCreep).x, (cs.getD m defaultCreep).y) = some k := by
  induction cs generalizing i₀ m with
  | nil => simp at hm
  | cons c rest ih =>
    unfold buildOcc
    rw [posLookup_append]
    cases m with
    | zero =>
      cases hrest : posLookup (buildOcc rest (i₀ + 1)) ((c.x, c.y)) with
      | some v => exact ⟨v, by simpa [hrest] using rfl⟩
      | none =>
        refine ⟨i₀, ?_⟩
        simp only [List.getD_cons_zero] at hal ⊢
        rw [hrest]
        simp [posLookup, if_pos hal, hal]
    | succ n =>
      have hn : n < rest.length := by simpa using hm
      have hal' : (rest.getD n defaultCreep).isAlive = true := by simpa using hal
      obtain ⟨k, hk⟩ := ih (i₀ + 1) n hn hal'
      simp only [List.getD_cons_succ]
      rw [hk]
      exact ⟨k, rfl⟩

theorem updateOccupancy_MC (e : Engine) : MapCovers e.updateOccupancy := by
  intro j hj haj
  have hj' : j < e.creeps.length := hj
  have haj' : (e.creeps.getD j defaultCreep).isAlive = true := haj
  obtain ⟨k, hk⟩ := buildOcc_lookup_present e.creeps 0 j hj' haj'
  obtain ⟨m, hm, hkm, hal, hpos⟩ := buildOcc_lookup_mem e.creeps 0 _ k hk
  have hkm' : k = m := by omega
  subst hkm'
  refine ⟨k, hm, hk, hal, ?_, ?_⟩
  · exact congrArg Prod.fst hpos
  · exact congrArg Prod.snd hpos

theorem updateOccupancy_creeps (e : Engine) : e.updateOccupancy.creeps = e.creeps := rfl

theorem updateOccupancy_shell (e : Engine) : Shell e e.updateOccupancy :=
  ⟨rfl, rfl, rfl, rfl, rfl, rfl, rfl, rfl, rfl⟩

/-! ## A creep's whole turn preserves the no-stacking invariant -/

/-- What one creep's turn may do to the engine: keep the shell, and —
given no-stacking and a covering occupancy map — preserve no-stacking. -/
def TurnOK (e e' : Engine) : Prop :=
  Shell e e' ∧
  (NoStacking e.creeps → MapCovers e → NoStacking e'.creeps)

theorem turnOK_refl (e : Engine) : TurnOK e e :=
  ⟨shell_refl e, fun h _ => h⟩

theorem turnOK_of_combat {e e' : Engine} (h : CombatWrite e e') : TurnOK e e' :=
  ⟨h.1, fun hNS _ => NS_of_combatWrite h hNS⟩

theorem turnOK_of_move {i : ℕ} {e e' : Engine} (h : MoveWrite i e e') : TurnOK e e' :=
  ⟨h.1, fun hNS hMC => NS_of_moveWrite h hNS hMC⟩

theorem turnOK_comb_move {i : ℕ} {e e₁ e₂ : Engine} (h : CombatWrite e e₁)
    (h' : MoveWrite i e₁ e₂) : TurnOK e e₂ :=
  ⟨shell_trans h.1 h'.1, fun hNS hMC =>
    NS_of_moveWrite h' (NS_of_combatWrite h hNS) (MC_of_combatWrite h hNS hMC)⟩

theorem turnOK_move_comb {i : ℕ} {e e₁ e₂ : Engine} (h : MoveWrite i e e₁)
    (h' : CombatWrite e₁ e₂) : TurnOK e e₂ :=
  ⟨shell_trans h.1 h'.1, fun hNS hMC =>
    NS_of_combatWrite h' (NS_of_moveWrite h hNS hMC)⟩

theorem healBranch_turnOK (e : Engine) (i j : ℕ) : TurnOK e (e.healBranch i j).1 := by
  simp only [Engine.healBranch]
  split_ifs
  all_goals
    first
      | exact turnOK_refl e
      | exact turnOK_of_combat (engineHeal_combatWrite e i j)
      | exact turnOK_of_combat (engineRangedHeal_combatWrite e i j)
      | exact turnOK_of_move (engineMove_moveWrite e i _ _)
      | exact turnOK_comb_move (engineHeal_combatWrite e i j) (engineMove_moveWrite _ i _ _)
      | exact turnOK_comb_move (engineRangedHeal_combatWrite e i j)
          (engineMove_moveWrite _ i _ _)

theorem rangedBranch_turnOK (e : Engine) (i j : ℕ) : TurnOK e (e.rangedBranch i j).1 := by
  simp only [Engine.rangedBranch]
  split_ifs
  all_goals
    first
      | exact turnOK_refl e
      | exact turnOK_of_combat (engineRangedAttack_combatWrite e i j)
      | exact turnOK_of_move (engineMove_moveWrite e i _ _)
      | exact turnOK_comb_move (engineRangedAttack_combatWrite e i j)
          (engineMove_moveWrite _ i _ _)

theorem meleeBranch_turnOK (e : Engine) (i j : ℕ) : TurnOK e (e.meleeBranch i j).1 := by
  simp only [Engine.meleeBranch]
  split_ifs
  all_goals
    first
      | exact turnOK_of_combat (engineAttack_combatWrite e i j)
      | exact turnOK_of_move (engineMove_moveWrite e i _ _)
      | exact turnOK_move_comb (engineMove_moveWrite e i _ _) (engineAttack_combatWrite _ i j)

theorem hybridBranch_turnOK (e : Engine) (i j : ℕ) : TurnOK e (e.hybridBranch i j).1 := by
  simp only [Engine.hybridBranch]
  split_ifs
  all_goals
    first
      | exact turnOK_of_combat (engineAttack_combatWrite e i j)
      | exact turnOK_of_move (engineMove_moveWrite e i _ _)
      | exact turnOK_comb_move (engineRangedAttack_combatWrite e i j)
          (engineMove_moveWrite _ i _ _)

theorem dispatchBranch_turnOK (e : Engine) (i j : ℕ) : TurnOK e (e.dispatchBranch i j).1 := by
  simp only [Engine.dispatchBranch]
  split_ifs with h1 h2 h3
  · exact rangedBranch_turnOK e i j
  · exact meleeBranch_turnOK e i j
  · exact hybridBranch_turnOK e i j
  · exact turnOK_refl e

theorem offensiveStep_turnOK (e : Engine) (i : ℕ) : TurnOK e (e.offensiveStep i).1 := by
  unfold Engine.offensiveStep
  cases hn : e.findNearestEnemy i with
  | none => exact turnOK_refl e
  | some n =>
    cases hw : e.findMostDamagedEnemy i with
    | none => exact dispatchBranch_turnOK e i n
    | some w =>
      by_cases hr : 5 < (e.creepAt i).getRangeTo (e.creepAt w).x (e.creepAt w).y
      · simp only [if_pos hr]
        exact dispatchBranch_turnOK e i n
      · simp only [if_neg hr]
        exact dispatchBranch_turnOK e i w

theorem runSimpleAI_turnOK (e : Engine) (i : ℕ) : TurnOK e (e.runSimpleAI i).1 := by
  unfold Engine.runSimpleAI
  split_ifs with h1
  · cases hf : e.findMostDamagedFriendly i with
    | none => exact offensiveStep_turnOK e i
    | some j => exact healBranch_turnOK e i j
  · exact offensiveStep_turnOK e i

theorem reduceFatigueAll_NS (cs : List Creep) (h : NoStacking cs) :
    NoStacking (cs.map (fun c : Creep => if c.isAlive then c.reduceFatigue else c)) := by
  have hf : ∀ c : Creep, ((if c.isAlive then c.reduceFatigue else c).x = c.x ∧
      (if c.isAlive then c.reduceFatigue else c).y = c.y ∧
      (if c.isAlive then c.reduceFatigue else c).isAlive = c.isAlive) := by
    intro c
    by_cases hc : c.isAlive = true
    · rw [if_pos hc]; exact ⟨rfl, rfl, rfl⟩
    · rw [if_neg hc]; exact ⟨rfl, rfl, rfl⟩
  intro i hi j hj hij hai haj
  rw [List.length_map] at hi hj
  rw [getD_map_lt _ _ _ _ defaultCreep hi] at hai ⊢
  rw [getD_map_lt _ _ _ _ defaultCreep hj] at haj ⊢
  obtain ⟨hxi, hyi, hli⟩ := hf (cs.getD i defaultCreep)
  obtain ⟨hxj, hyj, hlj⟩ := hf (cs.getD j defaultCreep)
  rw [hli] at hai
  rw [hlj] at haj
  rw [hxi, hyi, hxj, hyj]
  exact h i hi j hj hij hai haj

def defaultCreepState : CreepState :=
  { id := 0, name := 0, x := 0, y := 0, my := true, hits := 0, hitsMax := 0
    damageDealt := 0, damageTaken := 0, healingDone := 0, healingReceived := 0, fatigue := 0 }

/-- No-stacking read off a recorded frame: among snapshots with positive
hit points, positions are pairwise distinct. -/
def FrameOK (f : Frame) : Prop :=
  ∀ i, i < f.creeps.length → ∀ j, j < f.creeps.length → i ≠ j →
    0 < (f.creeps.getD i defaultCreepState).hits →
    0 < (f.creeps.getD j defaultCreepState).hits →
    ((f.creeps.getD i defaultCreepState).x, (f.creeps.getD i defaultCreepState).y) ≠
      ((f.creeps.getD j defaultCreepState).x, (f.creeps.getD j defaultCreepState).y)

def FramesOK (e : Engine) : Prop := ∀ f ∈ e.recording, FrameOK f

theorem recordFrame_creeps (e : Engine) (acts : List BattleAction) :
    (e.recordFrame acts).creeps = e.creeps := by
  simp only [Engine.recordFrame]
  split_ifs <;> rfl

theorem recordFrame_tick (e : Engine) (acts : List BattleAction) :
    (e.recordFrame acts).tick = e.tick := by
  simp only [Engine.recordFrame]
  split_ifs <;> rfl

theorem recordFrame_maxTicks (e : Engine) (acts : List BattleAction) :
    (e.recordFrame acts).maxTicks = e.maxTicks := by
  simp only [Engine.recordFrame]
  split_ifs <;> rfl

theorem recordFrame_framesOK (e : Engine) (acts : List BattleAction)
    (hNS : NoStacking e.creeps) (hF : FramesOK e) : FramesOK (e.recordFrame acts) := by
  have hrec : ∃ fr, (e.recordFrame acts).recording = e.recording ++ [fr] ∧
      fr.creeps = e.creeps.map (fun c : Creep =>
        { id := c.id, name := c.name, x := c.x, y := c.y, my := c.my, hits := c.hits
          hitsMax := c.hitsMax, damageDealt := c.damageDealt, damageTaken := c.damageTaken
          healingDone := c.healingDone, healingReceived := c.healingReceived
          fatigue := c.fatigue : CreepState }) := by
    simp only [Engine.recordFrame]
    split_ifs <;> exact ⟨_, rfl, rfl⟩
  obtain ⟨fr, hrec, hfr⟩ := hrec
  intro f hf
  rw [hrec] at hf
  rcases List.mem_append.mp hf with hold | hnew
  · exact hF f hold
  · have hfeq : f = fr := by simpa using hnew
    subst hfeq
    intro i hi j hj hij hhi hhj
    rw [hfr] at hi hj hhi hhj ⊢
    rw [List.length_map] at hi hj
    rw [getD_map_lt _ _ _ _ defaultCreep hi] at hhi ⊢
    rw [getD_map_lt _ _ _ _ defaultCreep hj] at hhj ⊢
    have hai : (e.creeps.getD i defaultCreep).isAlive = true := by
      unfold Creep.isAlive
      exact decide_eq_true hhi
    have haj : (e.creeps.getD j defaultCreep).isAlive = true := by
      unfold Creep.isAlive
      exact decide_eq_true hhj
    have := hNS i hi j hj hij hai haj
    intro hcon
    exact this (by simpa using hcon)

theorem foldAI_inv (l : List ℕ) :
    ∀ s : Engine × List BattleAction,
      Shell s.1 (l.foldl (fun (s : Engine × List BattleAction) i =>
        let (e', acts) := s.1.runSimpleAI i
        (e'.updateOccupancy, s.2 ++ acts)) s).1 ∧
      (NoStacking s.1.creeps → MapCovers s.1 →
        NoStacking (l.foldl (fun (s : Engine × List BattleAction) i =>
          let (e', acts) := s.1.runSimpleAI i
          (e'.updateOccupancy, s.2 ++ acts)) s).1.creeps ∧
        MapCovers (l.foldl (fun (s : Engine × List BattleAction) i =>
          let (e', acts) := s.1.runSimpleAI i
          (e'.updateOccupancy, s.2 ++ acts)) s).1) := by
  induction l with
  | nil => exact fun s => ⟨shell_refl _, fun h hm => ⟨h, hm⟩⟩
  | cons i rest ih =>
    intro s
    rw [List.foldl_cons]
    obtain ⟨hshell, hns⟩ := runSimpleAI_turnOK s.1 i
    obtain ⟨ihShell, ihNS⟩ := ih ((s.1.runSimpleAI i).1.updateOccupancy,
      s.2 ++ (s.1.runSimpleAI i).2)
    constructor
    · exact shell_trans (shell_trans hshell (updateOccupancy_shell _)) ihShell
    · intro hNS hMC
      have hNS1 : NoStacking ((s.1.runSimpleAI i).1.updateOccupancy).creeps := by
        rw [updateOccupancy_creeps]
        exact hns hNS hMC
      exact ihNS hNS1 (updateOccupancy_MC _)

/-- Stage of `executeTick` after the tick increment, the fatigue pass and
the first occupancy rebuild. -/
def tickStage3 (e : Engine) : Engine :=
  ({ e with tick := e.tick + 1
            creeps := e.creeps.map
              (fun c : Creep => if c.isAlive then c.reduceFatigue else c) } : Engine).updateOccupancy

/-- The per-actor AI loop of `executeTick`, with its collected actions. -/
def tickFold (e : Engine) : Engine × List BattleAction :=
  (tickStage3 e).aliveIdxs.foldl (fun (s : Engine × List BattleAction) i =>
    let (e', acts) := s.1.runSimpleAI i
    (e'.updateOccupancy, s.2 ++ acts)) (tickStage3 e, [])

theorem executeTick_fst (e : Engine) :
    (e.executeTick).1 =
      if ((tickFold e).1.updateOccupancy).recordBattle then
        ((tickFold e).1.updateOccupancy).recordFrame (tickFold e).2
      else (tickFold e).1.updateOccupancy := rfl

theorem executeTick_snd (e : Engine) :
    (e.executeTick).2 =
      (decide (0 < ((e.executeTick).1.aliveTeamIdxs true).length) &&
       decide (0 < ((e.executeTick).1.aliveTeamIdxs false).length) &&
       decide ((e.executeTick).1.tick < (e.executeTick).1.maxTicks)) := rfl

theorem executeTick_facts (e : Engine) :
    (e.executeTick).1.tick = e.tick + 1 ∧
    (e.executeTick).1.maxTicks = e.maxTicks ∧
    (NoStacking e.creeps → NoStacking (e.executeTick).1.creeps) ∧
    (NoStacking e.creeps → FramesOK e → FramesOK (e.executeTick).1) := by
  have hfold : Shell (tickStage3 e) (tickFold e).1 ∧
      (NoStacking (tickStage3 e).creeps → MapCovers (tickStage3 e) →
        NoStacking (tickFold e).1.creeps ∧ MapCovers (tickFold e).1) :=
    foldAI_inv (tickStage3 e).aliveIdxs (tickStage3 e, [])
  have htick3 : (tickStage3 e).tick = e.tick + 1 := rfl
  have hmax3 : (tickStage3 e).maxTicks = e.maxTicks := rfl
  have hrec3 : (tickStage3 e).recording = e.recording := rfl
  have hNS3 : NoStacking e.creeps → NoStacking (tickStage3 e).creeps := by
    intro h
    exact reduceFatigueAll_NS e.creeps h
  have hMC3 : MapCovers (tickStage3 e) := updateOccupancy_MC _
  have hNSf : NoStacking e.creeps → NoStacking (tickFold e).1.creeps :=
    fun h => (hfold.2 (hNS3 h) hMC3).1
  obtain ⟨hfmax, hftick, _, hfrecB, hfrec, _⟩ := hfold.1
  rw [executeTick_fst]
  refine ⟨?_, ?_, ?_, ?_⟩
  · split_ifs with hb
    · rw [recordFrame_tick]
      rw [show ((tickFold e).1.updateOccupancy).tick = (tickFold e).1.tick from rfl]
      rw [hftick, htick3]
    · rw [show ((tickFold e).1.updateOccupancy).tick = (tickFold e).1.tick from rfl]
      rw [hftick, htick3]
  · split_ifs with hb
    · rw [recordFrame_maxTicks]
      rw [show ((tickFold e).1.updateOccupancy).maxTicks = (tickFold e).1.maxTicks from rfl]
      rw [hfmax, hmax3]
    · rw [show ((tickFold e).1.updateOccupancy).maxTicks = (tickFold e).1.maxTicks from rfl]
      rw [hfmax, hmax3]
  · intro h
    split_ifs with hb
    · rw [recordFrame_creeps]
      rw [show ((tickFold e).1.updateOccupancy).creeps = (tickFold e).1.creeps from rfl]
      exact hNSf h
    · rw [show ((tickFold e).1.updateOccupancy).creeps = (tickFold e).1.creeps from rfl]
      exact hNSf h
  · intro h hF
    have hrecU : ((tickFold e).1.updateOccupancy).recording = e.recording := by
      rw [show ((tickFold e).1.updateOccupancy).recording = (tickFold e).1.recording from rfl]
      rw [hfrec, hrec3]
    have hFU : FramesOK ((tickFold e).1.updateOccupancy) := by
      intro f hf
      rw [hrecU] at hf
      exact hF f hf
    have hNSU : NoStacking ((tickFold e).1.updateOccupancy).creeps := by
      rw [show ((tickFold e).1.updateOccupancy).creeps = (tickFold e).1.creeps from rfl]
      exact hNSf h
    split_ifs with hb
    · exact recordFrame_framesOK _ _ hNSU hFU
    · exact hFU

theorem runBattleLoop_succ (e : Engine) (n : ℕ) :
    runBattleLoop e (n + 1) =
      (if (e.executeTick).2 = true then
        ((runBattleLoop (e.executeTick).1 n).1, (runBattleLoop (e.executeTick).1 n).2 + 1)
      else ((e.executeTick).1, 1)) := rfl

theorem runBattleLoop_NSF : ∀ (fuel : ℕ) (e : Engine),
    NoStacking e.creeps → FramesOK e →
    NoStacking (runBattleLoop e fuel).1.creeps ∧ FramesOK (runBattleLoop e fuel).1 := by
  intro fuel
  induction fuel with
  | zero => exact fun e h hf => ⟨h, hf⟩
  | succ n ih =>
    intro e h hf
    obtain ⟨_, _, hNS, hFO⟩ := executeTick_facts e
    rw [runBattleLoop_succ]
    by_cases hc : (e.executeTick).2 = true
    · rw [if_pos hc]
      exact ih (e.executeTick).1 (hNS h) (hFO h hf)
    · rw [if_neg hc]
      exact ⟨hNS h, hFO h hf⟩

theorem runBattleLoop_calls_le : ∀ (fuel : ℕ) (e : Engine),
    (runBattleLoop e fuel).2 ≤ fuel := by
  intro fuel
  induction fuel with
  | zero => intro e; exact le_refl 0
  | succ n ih =>
    intro e
    rw [runBattleLoop_succ]
    by_cases hc : (e.executeTick).2 = true
    · rw [if_pos hc]
      have := ih (e.executeTick).1
      show (runBattleLoop (e.executeTick).1 n).2 + 1 ≤ n + 1
      omega
    · rw [if_neg hc]
      show 1 ≤ n + 1
      omega

theorem runBattleLoop_fuel : ∀ (fuel fuel' : ℕ) (e : Engine),
    1 ≤ fuel → e.maxTicks + 1 - e.tick ≤ fuel → fuel ≤ fuel' →
    runBattleLoop e fuel' = runBattleLoop e fuel := by
  intro fuel
  induction fuel with
  | zero => intro fuel' e h1 _ _; exact absurd h1 (by omega)
  | succ n ih =>
    intro fuel' e _ hb hle
    obtain ⟨m, rfl⟩ : ∃ m, fuel' = m + 1 := ⟨fuel' - 1, by omega⟩
    rw [runBattleLoop_succ, runBattleLoop_succ]
    by_cases hc : (e.executeTick).2 = true
    · rw [if_pos hc, if_pos hc]
      obtain ⟨ht, hm, _, _⟩ := executeTick_facts e
      have h3 : (e.executeTick).1.tick < (e.executeTick).1.maxTicks := by
        have h' := (executeTick_snd e).symm.trans hc
        simp only [Bool.and_eq_true, decide_eq_true_eq] at h'
        exact h'.2
      rw [ht, hm] at h3
      rw [ih m (e.executeTick).1 (by omega) (by rw [ht, hm]; omega) (by omega)]
    · rw [if_neg hc, if_neg hc]

/-- C2: starting from pairwise-distinct living positions (and only
well-formed recorded frames), the invariant survives one `executeTick` and
a whole `runBattle` — in particular every frame recorded along the way
keeps living actors on pairwise-distinct cells. -/
theorem noStacking_c2 (e : Engine) (hNS : NoStacking e.creeps) (hF : FramesOK e) :
    (NoStacking (e.executeTick).1.creeps ∧ FramesOK (e.executeTick).1) ∧
    (NoStacking (e.runBattle).1.creeps ∧ FramesOK (e.runBattle).1) := by
  obtain ⟨_, _, hN, hFO⟩ := executeTick_facts e
  refine ⟨⟨hN hNS, hFO hNS hF⟩, ?_⟩
  have h0NS : NoStacking ({ e with tick := 0 } : Engine).creeps := hNS
  have h0F : FramesOK ({ e with tick := 0 } : Engine) := hF
  exact runBattleLoop_NSF (e.maxTicks + 1) { e with tick := 0 } h0NS h0F

instance instDecNoStacking (cs : List Creep) : Decidable (NoStacking cs) :=
  decidable_of_iff
    (∀ i ∈ List.range cs.length, ∀ j ∈ List.range cs.length, i ≠ j →
      (cs.getD i defaultCreep).isAlive = true → (cs.getD j defaultCreep).isAlive = true →
      ((cs.getD i defaultCreep).x, (cs.getD i defaultCreep).y) ≠
        ((cs.getD j defaultCreep).x, (cs.getD j defaultCreep).y))
    (by
      constructor
      · intro h i hi j hj
        exact h i (List.mem_range.mpr hi) j (List.mem_range.mpr hj)
      · intro h i hi j hj
        exact h i (List.mem_range.mp hi) j (List.mem_range.mp hj))

instance instDecFrameOK (f : Frame) : Decidable (FrameOK f) :=
  decidable_of_iff
    (∀ i ∈ List.range f.creeps.length, ∀ j ∈ List.range f.creeps.length, i ≠ j →
      0 < (f.creeps.getD i defaultCreepState).hits →
      0 < (f.creeps.getD j defaultCreepState).hits →
      ((f.creeps.getD i defaultCreepState).x, (f.creeps.getD i defaultCreepState).y) ≠
        ((f.creeps.getD j defaultCreepState).x, (f.creeps.getD j defaultCreepState).y))
    (by
      constructor
      · intro h i hi j hj
        exact h i (List.mem_range.mpr hi) j (List.mem_range.mpr hj)
      · intro h i hi j hj
        exact h i (List.mem_range.mp hi) j (List.mem_range.mp hj))

instance instDecFramesOK (e : Engine) : Decidable (FramesOK e) := by
  unfold FramesOK
  infer_instance

def eC2 : Engine :=
  { maxTicks := 2
    creeps := [mkCreep 1 1 3 3 [.attack, .move] true, mkCreep 2 2 4 3 [.move] false]
    tick := 0
    occupiedTiles := buildOcc [mkCreep 1 1 3 3 [.attack, .move] true,
      mkCreep 2 2 4 3 [.move] false] 0
    terrain := tPlain20, baseTerrain := tPlain20, recordBattle := true, recording := []
    recordingTerrain := none, entropy := none, rng := fun _ => 0, rngIdx := 0 }

/-- C2 witness: the invariant instantiated on a concrete two-creep battle
with recording enabled. -/
theorem noStacking_c2_witness :
    NoStacking (eC2.executeTick).1.creeps ∧ FramesOK (eC2.runBattle).1 := by
  have h := noStacking_c2 eC2 (by with_unfolding_all decide) (by with_unfolding_all decide)
  exact ⟨h.1.1, h.2.2⟩

/-- C9: `runBattle`'s loop makes at most `maxTicks + 1` `executeTick`
calls and genuinely halts (extra fuel never changes the outcome); every
`executeTick` call increments the tick counter by exactly one, and the
continue flag is precisely "both sides alive and `tick < maxTicks`". -/
theorem termination_c9 (e : Engine) (hmax : 1 ≤ e.maxTicks) :
    e.runBattle = ((runBattleLoop ({ e with tick := 0 } : Engine) (e.maxTicks + 1)).1,
      (runBattleLoop ({ e with tick := 0 } : Engine) (e.maxTicks + 1)).1.getBattleResults) ∧
    ((runBattleLoop ({ e with tick := 0 } : Engine) (e.maxTicks + 1)).2 ≤ e.maxTicks + 1) ∧
    (∀ fuel, e.maxTicks + 1 ≤ fuel →
      runBattleLoop ({ e with tick := 0 } : Engine) fuel =
        runBattleLoop ({ e with tick := 0 } : Engine) (e.maxTicks + 1)) ∧
    (∀ e' : Engine, (e'.executeTick).1.tick = e'.tick + 1) ∧
    (∀ e' : Engine, (e'.executeTick).2 =
      (decide (0 < ((e'.executeTick).1.aliveTeamIdxs true).length) &&
       decide (0 < ((e'.executeTick).1.aliveTeamIdxs false).length) &&
       decide ((e'.executeTick).1.tick < (e'.executeTick).1.maxTicks))) := by
  refine ⟨rfl, runBattleLoop_calls_le _ _, ?_, fun e' => (executeTick_facts e').1,
    fun e' => executeTick_snd e'⟩
  intro fuel hf
  refine runBattleLoop_fuel (e.maxTicks + 1) fuel { e with tick := 0 } (by omega) ?_ hf
  show e.maxTicks + 1 - 0 ≤ e.maxTicks + 1
  omega

/-- C9 witness: the bound and fuel-independence on a concrete
one-tick-limit battle. -/
theorem termination_c9_witness :
    (runBattleLoop ({ eC1 with tick := 0 } : Engine) (eC1.maxTicks + 1)).2 ≤ eC1.maxTicks + 1 ∧
    runBattleLoop ({ eC1 with tick := 0 } : Engine) 5 =
      runBattleLoop ({ eC1 with tick := 0 } : Engine) (eC1.maxTicks + 1) := by
  have h := termination_c9 eC1 (by decide)
  exact ⟨h.2.1, h.2.2.1 5 (by decide)⟩

/-! ## C8 — reproducibility of the whole pipeline -/

/-- C8: the full per-battle pipeline — construction, reset with wall
entropy, roster setup, spawn entropy, tick loop, recording export — is a
pure function of the configuration, roster, and random-source sequence:
identical rosters and pointwise-identical random streams give identical
recorded frames (and identical whole recordings and results). -/
theorem reproducibility_c8 (cfg₁ cfg₂ : EngineConfig) (rng₁ rng₂ : ℕ → ℚ)
    (roster₁ roster₂ : List Creep)
    (hcfg : cfg₁ = cfg₂) (hroster : roster₁ = roster₂) (hrng : ∀ n, rng₁ n = rng₂ n) :
    (runOneRecordedBattle cfg₁ rng₁ roster₁).1.frames =
      (runOneRecordedBattle cfg₂ rng₂ roster₂).1.frames ∧
    runOneRecordedBattle cfg₁ rng₁ roster₁ = runOneRecordedBattle cfg₂ rng₂ roster₂ := by
  have hr : rng₁ = rng₂ := funext hrng
  subst hcfg
  subst hroster
  subst hr
  exact ⟨rfl, rfl⟩

def cfgC8 : EngineConfig :=
  { maxTicks := 2, terrain := some tPlain20, recordBattle := true, entropy := none }

def rosterC8 : List Creep :=
  [mkCreep 1 1 3 3 [.attack, .move] true, mkCreep 2 2 5 3 [.move] false]

/-- C8 witness: two runs with syntactically different but pointwise-equal
random sources produce the same frames. -/
theorem reproducibility_c8_witness :
    (runOneRecordedBattle cfgC8 (fun _ => (0 : ℚ)) rosterC8).1.frames =
      (runOneRecordedBattle cfgC8 (fun n => (0 : ℚ) * (n : ℚ)) rosterC8).1.frames :=
  (reproducibility_c8 cfgC8 cfgC8 (fun _ => (0 : ℚ)) (fun n => (0 : ℚ) * (n : ℚ))
    rosterC8 rosterC8 rfl rfl (fun n => by ring)).1
